import Mathlib

/-!
Verification development for `organize_dbgap.py` (UW-GAC/dbgap-organization).

The Python module classifies downloaded dbGaP files by filename pattern,
reconciles them into file sets, validates consent-group coverage and
materializes a symlink layout.  This file gives a shallow embedding of the
relevant functions and proves/refutes the frozen specification claims.

Modelling conventions:
* File contents live in an ambient map `FileContents : String → String`
  (full path ↦ bytes); the external `diff` call of `_check_diffs` is
  modelled as equality of contents.
* Python exceptions are modelled by the error type `PyErr`; a function that
  can raise returns `Except PyErr α`.
* Python `dict` iteration (in `_set_file_type`) and `set` iteration
  (in `_get_phenotype_file_sets`) are modelled in insertion order /
  first-occurrence order.  (CPython ≥ 3.7 guarantees dicts iterate in
  insertion order; `set` order is arbitrary, so the embedding fixes the
  deterministic first-occurrence order.)
* The regular expressions of `dbgap_re_dict` are embedded by a small exact
  matcher for the fragment of `re` they use (literals, character classes
  `\d`, `\w`, `.`, anchored match, lazy quantifiers, captures).  Character
  classes are the ASCII readings of the Python Unicode classes, and `$` is
  modelled as strict end-of-string.
-/

/-! ### A tiny backtracking matcher for the regex fragment used by `dbgap_re_dict`

Each of the four patterns is a plain sequence of elements; every quantifier
in them applies to a single character class, so an element is either a
literal, a class repeated exactly `n` times (`\d{6}`), or a lazy repetition
of a class with a minimum count (`\d+?`, `.+?`, `\w{0,}?`).  `mmatch`
returns the list of consumed substrings, one per element (in particular the
capture groups are recovered as single elements or concatenations of
elements).  Lazy backtracking priority is realized by trying the shortest
repetition first (`List.range` enumerates candidate lengths increasingly),
exactly the order in which the Python re engine explores lazy quantifiers. -/

/-- One element of a (sequential) regular expression. -/
inductive RElem where
  | lit : List Char → RElem
  | exactly : (Char → Bool) → Nat → RElem
  | lazyRep : (Char → Bool) → Nat → RElem

/-- Anchored match of a sequence of elements against a string, returning the
substring consumed by each element (shortest-first for lazy repetitions,
with full backtracking).  `none` means no match. -/
def mmatch : List RElem → List Char → Option (List (List Char))
  | [], s => if s = [] then some [] else none
  | .lit w :: es, s =>
      if s.take w.length = w then
        (mmatch es (s.drop w.length)).map (fun ps => w :: ps)
      else none
  | .exactly p n :: es, s =>
      if (s.take n).length = n ∧ (s.take n).all p then
        (mmatch es (s.drop n)).map (fun ps => (s.take n) :: ps)
      else none
  | .lazyRep p m :: es, s =>
      (List.range (s.length + 1)).findSome? fun k =>
        if m ≤ k ∧ (s.take k).all p then
          (mmatch es (s.drop k)).map (fun ps => (s.take k) :: ps)
        else none

/-- ASCII reading of the Python class for a word character. -/
def wordCh (c : Char) : Bool := c.isAlphanum || c = '_'

/-- Model of the regex dot: any character except a newline. -/
def anyCh (c : Char) : Bool := c != '\n'

/-- The common prefix of all four patterns:
`(?P<dbgap_id>phs\d{6}\.v\d+?\.pht\d{6}\.v\d+?)` — pieces 0–7. -/
def dbgapIdElems : List RElem :=
  [.lit "phs".toList, .exactly Char.isDigit 6,
   .lit ".v".toList, .lazyRep Char.isDigit 1,
   .lit ".pht".toList, .exactly Char.isDigit 6,
   .lit ".v".toList, .lazyRep Char.isDigit 1]

/-- Pattern `data_dict`, regex `^<dbgap_id>\.(?P<base>.+?)\.data_dict(?P<extra>\w{0,}?)\.xml$`
(pieces: 8 `"."`, 9 `base`, 10 `".data_dict"`, 11 `extra`, 12 `".xml"`). -/
def dataDictElems : List RElem :=
  dbgapIdElems ++
  [.lit ".".toList, .lazyRep anyCh 1,
   .lit ".data_dict".toList, .lazyRep wordCh 0, .lit ".xml".toList]

/-- Pattern `phenotype`, regex `^<dbgap_id>\.p(\d+?)\.c(\d+?)\.(?P<base>.+?)\.(?P<consent_code>.+?)\.txt$`
(pieces: 8 `".p"`, 9 digits, 10 `".c"`, 11 digits, 12 `"."`, 13 `base`,
14 `"."`, 15 `consent_code`, 16 `".txt"`). -/
def phenotypeElems : List RElem :=
  dbgapIdElems ++
  [.lit ".p".toList, .lazyRep Char.isDigit 1,
   .lit ".c".toList, .lazyRep Char.isDigit 1,
   .lit ".".toList, .lazyRep anyCh 1,
   .lit ".".toList, .lazyRep anyCh 1, .lit ".txt".toList]

/-- Pattern `var_report`, regex `^<dbgap_id>\.p(\d+?)\.(?P<base>.+?)\.var_report(\w{0,}?)\.xml$`
(pieces: 8 `".p"`, 9 digits, 10 `"."`, 11 `base`, 12 `".var_report"`,
13 word chars, 14 `".xml"`). -/
def varReportElems : List RElem :=
  dbgapIdElems ++
  [.lit ".p".toList, .lazyRep Char.isDigit 1,
   .lit ".".toList, .lazyRep anyCh 1,
   .lit ".var_report".toList, .lazyRep wordCh 0, .lit ".xml".toList]

/-- Pattern `special`, regex `^<dbgap_id>\.p(\d+?)\.(.+?)\.MULTI.txt$` — note
the unescaped dot in `MULTI.txt`, which matches any character (pieces: 8 `".p"`, 9 digits,
10 `"."`, 11 the third capture group, 12 `".MULTI"`, 13 any single
character, 14 `"txt"`). -/
def specialElems : List RElem :=
  dbgapIdElems ++
  [.lit ".p".toList, .lazyRep Char.isDigit 1,
   .lit ".".toList, .lazyRep anyCh 1,
   .lit ".MULTI".toList, .exactly anyCh 1, .lit "txt".toList]

/-- Anchored match of one of the patterns against a basename. -/
def runPat (es : List RElem) (basename : String) : Option (List (List Char)) :=
  mmatch es basename.toList

/-- Model of `dbgap_re_dict`: the insertion-ordered association list of patterns. -/
def dbgap_re_list : List (String × List RElem) :=
  [("data_dict", dataDictElems), ("phenotype", phenotypeElems),
   ("var_report", varReportElems), ("special", specialElems)]

/-- Model of `DbgapFile._set_file_type`: iterate over all patterns of the dictionary
and record the type and match of every pattern that matches — there is no
`break`, so a later match overwrites an earlier one. -/
def _set_file_type (basename : String) : Option (String × List (List Char)) :=
  dbgap_re_list.foldl
    (fun acc kv =>
      match runPat kv.2 basename with
      | some pieces => some (kv.1, pieces)
      | none => acc)
    none

/-! ### String helpers: substring containment, sorting, deduplication -/

/-- Test whether `w` is a leading block of `s` (used to model substring search). -/
def startsW : List Char → List Char → Bool
  | [], _ => true
  | _ :: _, [] => false
  | a :: as, b :: bs => a == b && startsW as bs

/-- Test whether `w` occurs contiguously anywhere in `s`. -/
def occursIn (w : List Char) : List Char → Bool
  | [] => startsW w []
  | b :: bs => startsW w (b :: bs) || occursIn w bs

/-- Model of the Python expression `needle in hay` on strings. -/
def strIn (needle hay : String) : Bool := occursIn needle.toList hay.toList

/-- Code-point comparison of characters (Python compares strings by code point). -/
def charLt (a b : Char) : Bool := a.toNat < b.toNat

/-- Lexicographic comparison of strings as in Python. -/
def lexLe : List Char → List Char → Bool
  | [], _ => true
  | _ :: _, [] => false
  | a :: as, b :: bs => charLt a b || (a == b && lexLe as bs)

/-- Ordered insertion used by the insertion sort below. -/
def insertStr (x : String) : List String → List String
  | [] => [x]
  | y :: ys => if lexLe x.toList y.toList then x :: y :: ys else y :: insertStr x ys

/-- Model of the Python `list.sort()` on a list of strings (ascending,
lexicographic by code point; on strings stability is irrelevant because
equal strings are identical). -/
def sortStrs : List String → List String
  | [] => []
  | x :: xs => insertStr x (sortStrs xs)

/-- Deduplication keeping first occurrences, with an accumulator of seen
elements; deterministic model of iterating over a Python `set`. -/
def dedupFirstAux (seen : List String) : List String → List String
  | [] => []
  | x :: xs => if x ∈ seen then dedupFirstAux seen xs else x :: dedupFirstAux (x :: seen) xs

/-- Deduplication keeping the first occurrence of each element. -/
def dedupFirst (l : List String) : List String := dedupFirstAux [] l

/-- Model of `os.path.basename`: the part of the path after the last slash. -/
def pathBasename (p : String) : String :=
  ((p.toList.reverse.takeWhile (fun c => c != '/')).reverse).asString

/-- Model of `x.replace(".", "")`: remove every dot. -/
def stripDots (s : String) : String := (s.toList.filter (fun c => c != '.')).asString

/-! ### Data model: `DbgapFile`, `PyErr`, file sets, file contents -/

/-- Model of the `DbgapFile` class.  The Python constructor stores the path
and the basename and immediately runs `_set_file_type`; since the latter is
a pure function of the basename, the embedding recomputes type and match on
demand instead of storing them (`DbgapFile.fileType`, `DbgapFile.pieces`).
The `os.path.abspath` normalization is elided: paths are taken as given. -/
structure DbgapFile where
  full_path : String
  basename : String
  deriving Repr, DecidableEq

/-- Model of the `DbgapFile` constructor for a path (basename auto-derived,
file type auto-set). -/
def mkDbgapFile (path : String) : DbgapFile :=
  { full_path := path, basename := pathBasename path }

/-- Value of the `file_type` attribute after construction (`none` models
the Python `None`). -/
def DbgapFile.fileType (f : DbgapFile) : Option String :=
  (_set_file_type f.basename).map Prod.fst

/-- Pieces of the regex match stored in the `match` attribute (`none` when
no pattern matched). -/
def DbgapFile.pieces (f : DbgapFile) : Option (List (List Char)) :=
  (_set_file_type f.basename).map Prod.snd

/-- Named capture group `dbgap_id`: in all four patterns it spans the first
eight pieces of the match. -/
def piecesDbgapId (ps : List (List Char)) : String := ((ps.take 8).flatten).asString

/-- Model of `f.match.groupdict()["dbgap_id"]` (`none` when `f.match` is
`None`, in which case the Python attribute access would raise). -/
def DbgapFile.dbgapId (f : DbgapFile) : Option String :=
  (f.pieces).map piecesDbgapId

/-- Python exceptions raised by the modelled functions, with the payload
needed by the claims. -/
inductive PyErr where
  /-- FileNotFoundError (missing file in `DbgapFile.__init__` or a symlink source). -/
  | fileNotFound (path : String)
  /-- IndexError: list index out of range (subscript `[0]` on an empty list). -/
  | indexError
  /-- AttributeError: `f.match` is `None` and `groupdict()` is called on it. -/
  | attributeError
  /-- ValueError of `_check_diffs`: files expected to be the same but differ. -/
  | filesDifferent (a b : String)
  /-- ValueError of `_get_phenotype_file_sets`: a set has the wrong number of data files. -/
  | setSizeMismatch (basenames : List String) (n : Nat)
  /-- RuntimeError of `_get_phenotype_file_sets`: duplicate phenotype files for a filename. -/
  | duplicateFile (name : String)
  /-- ValueError of `max()` applied to an empty sequence. -/
  | maxEmptyError
  /-- KeyError of `_check_consent_groups`: consent variable not in the subject file. -/
  | keyError (var : String)
  /-- RuntimeError of `_check_consent_groups`: number of phenotype files does not
  match the expected number of consent groups. -/
  | consentCountMismatch
  /-- RuntimeError of `_check_consent_groups`: missing files for consent groups. -/
  | missingConsentGroups (groups : List String)
  /-- FileExistsError of `os.mkdir` on an existing directory. -/
  | fileExists (dir : String)
  /-- AssertionError of the `assert` statements in `organize`. -/
  | assertionError
  /-- Marker for an input on which the Python code loops forever
  (the header-skipping loop of `_check_consent_groups` at end of file). -/
  | endlessLoop
  deriving Repr, DecidableEq

/-- File-set dictionary built by `_get_special_file_set` and
`_get_phenotype_file_sets`: keys `data_files`, `var_report`, `data_dict`. -/
structure FileSet where
  data_files : List DbgapFile
  var_report : Option DbgapFile
  data_dict : Option DbgapFile
  deriving Repr, DecidableEq

/-- Ambient file contents: full path ↦ bytes (as a string). -/
def FileContents : Type := String → String

/-! ### `_check_diffs` and `_get_file_match` -/

/-- Loop body of `_check_diffs`: compare the first file `a` against each of
the remaining files, failing at the first one whose bytes differ (the unix
`diff` exits non-zero, raising the ValueError of line 95). -/
def checkDiffsLoop (fs : FileContents) (a : DbgapFile) : List DbgapFile → Except PyErr Unit
  | [] => .ok ()
  | b :: bs =>
      if fs a.full_path = fs b.full_path then checkDiffsLoop fs a bs
      else .error (.filesDifferent a.full_path b.full_path)

/-- Model of `_check_diffs` (lines 83–96): take `subset[0]` (IndexError on an
empty list) and diff every other member against it. -/
def _check_diffs (fs : FileContents) (subset : List DbgapFile) : Except PyErr Unit :=
  match subset with
  | [] => .error .indexError
  | a :: rest => checkDiffsLoop fs a rest

/-- Candidate companions: records whose `file_type` equals `match_type` and
whose `dbgap_id` capture equals `idm` (the filter loop of lines 121–125,
in inventory order). -/
def companionCands (dbgap_files : List DbgapFile) (match_type idm : String) : List DbgapFile :=
  dbgap_files.filter fun f => f.fileType == some match_type && f.dbgapId == some idm

/-- Model of `_get_file_match` (lines 99–136).  Control flow of the source:
an empty candidate list returns `None` only when `must_exist` is false;
otherwise execution falls through to `_check_diffs` (IndexError on the
empty list) and to `matches[0]`. -/
def _get_file_match (fs : FileContents) (dbgap_files : List DbgapFile)
    (toMatch : DbgapFile) (match_type : String)
    (check_diffs : Bool := true) (must_exist : Bool := true) :
    Except PyErr (Option DbgapFile) :=
  match toMatch.dbgapId with
  | none => .error .attributeError
  | some idm =>
    let cands := companionCands dbgap_files match_type idm
    if cands.length == 0 && !must_exist then .ok none
    else
      match (if check_diffs then _check_diffs fs cands else .ok ()) with
      | .error e => .error e
      | .ok () =>
        match cands with
        | [] => .error .indexError
        | m :: _ => .ok (some m)

/-! ### `_get_special_file_set` -/

/-- Selection of the special files (line 160): records typed `special` whose
basename contains `pattern` as a substring. -/
def specialFiles (dbgap_files : List DbgapFile) (pattern : String) : List DbgapFile :=
  dbgap_files.filter fun f => f.fileType == some "special" && strIn pattern f.basename

/-- Model of `_get_special_file_set` (lines 139–176): select the special
files for the pattern; `None` if there are none; otherwise verify they are
identical, attach the matching `var_report` (optional) and `data_dict`
(required) of the first one, and return the set with that single file. -/
def _get_special_file_set (fs : FileContents) (dbgap_files : List DbgapFile)
    (pattern : String := "Subject") : Except PyErr (Option FileSet) :=
  match specialFiles dbgap_files pattern with
  | [] => .ok none
  | s0 :: rest =>
    match _check_diffs fs (s0 :: rest) with
    | .error e => .error e
    | .ok () =>
      match _get_file_match fs dbgap_files s0 "var_report" true false with
      | .error e => .error e
      | .ok var_report =>
        match _get_file_match fs dbgap_files s0 "data_dict" true true with
        | .error e => .error e
        | .ok data_dict =>
          .ok (some { data_files := [s0], var_report := var_report, data_dict := data_dict })

/-! ### `_get_phenotype_file_sets` -/

/-- Model of the Python `max` on a list of naturals (`ValueError` on an
empty sequence is handled at the call site through the `none` case). -/
def pyMax : List Nat → Option Nat
  | [] => none
  | x :: xs => some (xs.foldl Nat.max x)

/-- Construction of one phenotype file set for a given `dbgap_id`
(lines 205–212): the matching files in inventory order, the optional
`var_report` and the required `data_dict` of the first matching file.
(Phenotype-typed records always carry a `dbgap_id` capture, so the
`getD ""` default in the comparison is never taken.) -/
def buildPhenotypeSet (fs : FileContents) (dbgap_files phenotype_files : List DbgapFile)
    (dbgap_id : String) : Except PyErr FileSet :=
  match phenotype_files.filter (fun f => (f.dbgapId).getD "" == dbgap_id) with
  | [] => .error .indexError
  | m0 :: ms =>
    match _get_file_match fs dbgap_files m0 "var_report" true false with
    | .error e => .error e
    | .ok var_report =>
      match _get_file_match fs dbgap_files m0 "data_dict" true true with
      | .error e => .error e
      | .ok data_dict =>
        .ok { data_files := m0 :: ms, var_report := var_report, data_dict := data_dict }

/-- Loop of lines 203–212 over the distinct `dbgap_id` values. -/
def buildSetsLoop (fs : FileContents) (dbgap_files phenotype_files : List DbgapFile) :
    List String → Except PyErr (List FileSet)
  | [] => .ok []
  | i :: is =>
    match buildPhenotypeSet fs dbgap_files phenotype_files i with
    | .error e => .error e
    | .ok s =>
      match buildSetsLoop fs dbgap_files phenotype_files is with
      | .error e => .error e
      | .ok ss => .ok (s :: ss)

/-- Duplicate check of lines 223–228: fail on the first basename (in order)
occurring more than once in the list, naming it. -/
def dupCheck (basenames : List String) : Except PyErr Unit :=
  match basenames.find? (fun y => decide (1 < basenames.count y)) with
  | some y => .error (.duplicateFile y)
  | none => .ok ()

/-- Per-set check of lines 217–228: first the cardinality check against `n`
(raising with the basenames of the offending set and `n`), then the
duplicate check. -/
def checkPhenotypeFileSet (n : Nat) (x : FileSet) : Except PyErr Unit :=
  if x.data_files.length ≠ n then
    .error (.setSizeMismatch (x.data_files.map (fun y => y.basename)) n)
  else dupCheck (x.data_files.map (fun y => y.basename))

/-- Loop of lines 217–228 over all phenotype file sets, in order. -/
def checkSetsLoop (n : Nat) : List FileSet → Except PyErr Unit
  | [] => .ok ()
  | x :: xs =>
    match checkPhenotypeFileSet n x with
    | .error e => .error e
    | .ok () => checkSetsLoop n xs

/-- Checking stage of `_get_phenotype_file_sets` (lines 214–228): compute
`n` as the maximum number of data files over all sets (a `ValueError` from
`max([])` when there are no sets), then run the per-set checks. -/
def checkPhenotypeFileSets (sets : List FileSet) : Except PyErr Unit :=
  match pyMax (sets.map (fun x => x.data_files.length)) with
  | none => .error .maxEmptyError
  | some n => checkSetsLoop n sets

/-- Model of `_get_phenotype_file_sets` (lines 179–230): group the
phenotype-typed records by their `dbgap_id` capture (distinct ids in
first-occurrence order), attach companions, then run the cardinality and
duplicate checks and return the sets. -/
def _get_phenotype_file_sets (fs : FileContents) (dbgap_files : List DbgapFile) :
    Except PyErr (List FileSet) :=
  let phenotype_files := dbgap_files.filter fun f => f.fileType == some "phenotype"
  let dbgap_ids := dedupFirst (phenotype_files.map fun f => (f.dbgapId).getD "")
  match buildSetsLoop fs dbgap_files phenotype_files dbgap_ids with
  | .error e => .error e
  | .ok sets =>
    match checkPhenotypeFileSets sets with
    | .error e => .error e
    | .ok () => .ok sets

/-! ### `_check_consent_groups` -/

/-- Splitting of a character list at every occurrence of a delimiter
(used instead of `String.splitOn`, which does not reduce in the kernel). -/
def splitOnChar (c : Char) : List Char → List (List Char)
  | [] => [[]]
  | x :: xs =>
      match splitOnChar c xs, x == c with
      | r, true => [] :: r
      | [], false => [[x]]
      | y :: ys, false => (x :: y) :: ys

/-- Splitting of the subject file into lines (the Python code reads it line
by line and then through `pd.read_csv`). -/
def splitLines (content : String) : List String :=
  (splitOnChar '\n' content.toList).map List.asString

/-- Lines skipped by the header loop of lines 345–354: a line starting with
`#` or empty after stripping trailing whitespace. -/
def isSkippable (l : String) : Bool :=
  startsW "#".toList l.toList || l.toList.all Char.isWhitespace

/-- Number of leading skippable lines.  When every line is skippable the
Python loop never terminates — `readline` returns the empty string at end
of file, which counts as skippable — modelled by `none`. -/
def countSkip : List String → Option Nat
  | [] => none
  | l :: ls => if isSkippable l then (countSkip ls).map (fun n => n + 1) else some 0

/-- Model of `pd.read_csv(..., delimiter="\t", dtype=str, index_col=False,
skiprows=k)`: drop the first `k` lines, drop blank lines
(`skip_blank_lines=True`), split the rest on tabs.  The first row is the
header.  (Pandas NaN handling for ragged rows is approximated by an empty
cell default at the use sites.) -/
def pdReadTsv (content : String) (skiprows : Nat) : List (List String) :=
  (((splitLines content).drop skiprows).filter (fun l => l != "")).map
    (fun l => (splitOnChar '\t' l.toList).map List.asString)

/-- Extraction of the consent column of the subject file (lines 345–368):
count the header lines to skip, parse the table, then take the column named
`consent_variable` (KeyError when absent) or the third column.  A table with
no rows at all, or fewer than three columns without a named variable, makes
pandas raise; both are modelled as `indexError`. -/
def consentValuesOf (content : String) (consent_variable : Option String) :
    Except PyErr (List String) :=
  match countSkip (splitLines content) with
  | none => .error .endlessLoop
  | some k =>
    match pdReadTsv content k with
    | [] => .error .indexError
    | header :: rows =>
      match consent_variable with
      | none =>
        if 2 < header.length then .ok (rows.map fun r => r.getD 2 "")
        else .error .indexError
      | some v =>
        match header.findIdx? (fun h => h == v) with
        | none => .error (.keyError v)
        | some i => .ok (rows.map fun r => r.getD i "")

/-- Expected consent-group tokens (lines 370–376): the distinct consent
values with the sentinel `"0"` removed, rendered as `.c<value>.` and
sorted. -/
def expectedTokens (vals : List String) : List String :=
  sortStrs (((dedupFirst vals).filter (fun x => x != "0")).map (fun x => ".c" ++ x ++ "."))

/-- Mismatch collection of lines 386–389: pair the sorted expected tokens
with the sorted basenames and collect (dots stripped) every token that does
not occur in the basename aligned with it. -/
def consentMismatches (expected : List String) (s : FileSet) : List String :=
  (expected.zip (sortStrs (s.data_files.map (fun y => y.basename)))).filterMap
    (fun xy => if strIn xy.1 xy.2 then none else some (stripDots xy.1))

/-- Per-set consent check of lines 379–394: the set must have exactly
`n` data files, and every expected token must occur in the basename
aligned with it after sorting both lists. -/
def consentSetCheck (n : Nat) (expected : List String) (s : FileSet) : Except PyErr Unit :=
  if s.data_files.length ≠ n then .error .consentCountMismatch
  else
    match consentMismatches expected s with
    | [] => .ok ()
    | g :: gs => .error (.missingConsentGroups (g :: gs))

/-- Loop of lines 379–394 over the phenotype file sets, in order. -/
def consentLoop (n : Nat) (expected : List String) : List FileSet → Except PyErr Unit
  | [] => .ok ()
  | s :: ss =>
    match consentSetCheck n expected s with
    | .error e => .error e
    | .ok () => consentLoop n expected ss

/-- Model of `_check_consent_groups` (lines 343–394): read the consent
column of the first subject data file, compute the expected consent groups,
and validate every phenotype file set against them. -/
def _check_consent_groups (fs : FileContents) (subject_file_set : FileSet)
    (phenotype_file_sets : List FileSet) (consent_variable : Option String := none) :
    Except PyErr Unit :=
  match subject_file_set.data_files with
  | [] => .error .indexError
  | subj :: _ =>
    match consentValuesOf (fs subj.full_path) consent_variable with
    | .error e => .error e
    | .ok vals =>
      let uniques := (dedupFirst vals).filter (fun x => x != "0")
      consentLoop uniques.length (expectedTokens vals) phenotype_file_sets

/-! ### `get_file_list`, the Subject directory creation, and `organize` -/

/-- Abstraction of the directory walk used by `get_file_list`:
`walkFiles r` lists the full paths of all regular files below `r` in the
order `os.walk` produces them.  `walk_missing` records the `os.walk`
behaviour (default `onerror=None`) of yielding nothing for a root that does
not exist. -/
structure WalkFS where
  pathExists : String → Bool
  walkFiles : String → List String
  walk_missing : ∀ r, pathExists r = false → walkFiles r = []

/-- Model of `get_file_list` (lines 67–80): one `DbgapFile` per walked file
(the constructor raises `FileNotFoundError` when the path does not exist). -/
def get_file_list (w : WalkFS) (directory : String) : Except PyErr (List DbgapFile) :=
  (w.walkFiles directory).mapM fun p =>
    if w.pathExists p then .ok (mkDbgapFile p) else .error (.fileNotFound p)

/-- Model of `os.mkdir` over a predicate of existing directory entries:
raises `FileExistsError` if the directory is already present. -/
def os_mkdir (pathExists : String → Bool) (d : String) : Except PyErr Unit :=
  if pathExists d then .error (.fileExists d) else .ok ()

/-- Lines 299–300 of `_make_symlinks`, after changing into the organized
directory: `if not os.path.exists("Subjects"): os.mkdir("Subject")` —
note that the name tested is not the name created. -/
def makeSubjectDirStep (pathExists : String → Bool) : Except PyErr Unit :=
  if !(pathExists "Subjects") then os_mkdir pathExists "Subject" else .ok ()

/-- Lines 412–417 of `organize`: compute the three special file sets and
assert that the Subject and Sample sets are present; the Pedigree set may
be `None`. -/
def organizeSpecialSets (fs : FileContents) (dbgap_files : List DbgapFile) :
    Except PyErr (FileSet × FileSet × Option FileSet) :=
  match _get_special_file_set fs dbgap_files "Subject" with
  | .error e => .error e
  | .ok none => .error .assertionError
  | .ok (some subject_file_set) =>
    match _get_special_file_set fs dbgap_files "Sample" with
    | .error e => .error e
    | .ok none => .error .assertionError
    | .ok (some sample_file_set) =>
      match _get_special_file_set fs dbgap_files "Pedigree" with
      | .error e => .error e
      | .ok pedigree_file_set =>
        .ok (subject_file_set, sample_file_set, pedigree_file_set)

/-- Comparison definition following the wording of the specification
(§4.4, `special_set`): the `base` capture (third group) of the `special`
match of a file, defined when the file is classified `special`. -/
def specBaseCapture (f : DbgapFile) : Option String :=
  match _set_file_type f.basename with
  | some kp => if kp.1 = "special" then some ((kp.2.getD 11 []).asString) else none
  | none => none

/-! ### Concrete instances used by counterexamples and witnesses -/

/-- Trivial file contents: every path holds the same (empty) bytes. -/
def exFS : FileContents := fun _ => ""

/-- Inventory with two phenotype groups: the first group contains the same
basename twice (materialized from two download directories), the second has
a single phenotype file; each group has its data dictionary. -/
def c4exFiles : List DbgapFile :=
  [mkDbgapFile "/d1/phs000001.v1.pht000001.v1.p1.c1.b.x.txt",
   mkDbgapFile "/d2/phs000001.v1.pht000001.v1.p1.c1.b.x.txt",
   mkDbgapFile "/d1/phs000001.v1.pht000002.v1.p1.c1.b.x.txt",
   mkDbgapFile "/d1/phs000001.v1.pht000001.v1.b.data_dict.xml",
   mkDbgapFile "/d1/phs000001.v1.pht000002.v1.b.data_dict.xml"]

/-- Phenotype-typed records of `c4exFiles`. -/
def c4exPheno : List DbgapFile :=
  c4exFiles.filter fun f => f.fileType == some "phenotype"

/-- Distinct dataset ids of `c4exFiles` in first-occurrence order. -/
def c4exIds : List String :=
  dedupFirst (c4exPheno.map fun f => (f.dbgapId).getD "")

/-- First group built from `c4exFiles`: both copies of the duplicated file. -/
def c4exSetA : FileSet :=
  { data_files := [mkDbgapFile "/d1/phs000001.v1.pht000001.v1.p1.c1.b.x.txt",
                   mkDbgapFile "/d2/phs000001.v1.pht000001.v1.p1.c1.b.x.txt"],
    var_report := none,
    data_dict := some (mkDbgapFile "/d1/phs000001.v1.pht000001.v1.b.data_dict.xml") }

/-- Second group built from `c4exFiles`: one phenotype file. -/
def c4exSetB : FileSet :=
  { data_files := [mkDbgapFile "/d1/phs000001.v1.pht000002.v1.p1.c1.b.x.txt"],
    var_report := none,
    data_dict := some (mkDbgapFile "/d1/phs000001.v1.pht000002.v1.b.data_dict.xml") }

/-- Inventory with two phenotype groups: the first with one file, the second
with three files among which a duplicated basename. -/
def c8exFiles : List DbgapFile :=
  [mkDbgapFile "/d1/phs000001.v1.pht000003.v1.p1.c1.b.x.txt",
   mkDbgapFile "/d1/phs000001.v1.pht000004.v1.p1.c1.b.x.txt",
   mkDbgapFile "/d2/phs000001.v1.pht000004.v1.p1.c1.b.x.txt",
   mkDbgapFile "/d1/phs000001.v1.pht000004.v1.p1.c2.b.x.txt",
   mkDbgapFile "/d1/phs000001.v1.pht000003.v1.b.data_dict.xml",
   mkDbgapFile "/d1/phs000001.v1.pht000004.v1.b.data_dict.xml"]

/-- Phenotype-typed records of `c8exFiles`. -/
def c8exPheno : List DbgapFile :=
  c8exFiles.filter fun f => f.fileType == some "phenotype"

/-- Distinct dataset ids of `c8exFiles` in first-occurrence order. -/
def c8exIds : List String :=
  dedupFirst (c8exPheno.map fun f => (f.dbgapId).getD "")

/-- Subject table with a comment line, a header, and consent values 1 and 2. -/
def c5exContent : String := "#h\nA\tB\tC\n1\tx\t1\n2\ty\t2\n"

/-- File contents mapping every path to the subject table above. -/
def c5exFS : FileContents := fun _ => c5exContent

/-- Subject file set reading the table above. -/
def c5exSubj : FileSet :=
  { data_files := [mkDbgapFile "/d1/subj.txt"], var_report := none, data_dict := none }

/-- Phenotype file set whose two grammar-valid basenames carry the consent
tokens in the order opposite to their lexicographic order (different
participant-set numbers invert the sort). -/
def c5exSet : FileSet :=
  { data_files := [mkDbgapFile "/d1/phs000001.v1.pht000011.v1.p1.c2.b.x.txt",
                   mkDbgapFile "/d1/phs000001.v1.pht000011.v1.p2.c1.b.x.txt"],
    var_report := none, data_dict := none }

/-- Well-aligned phenotype file set for the same subject table. -/
def c5okSet : FileSet :=
  { data_files := [mkDbgapFile "/d1/phs000001.v1.pht000011.v1.p1.c1.b.x.txt",
                   mkDbgapFile "/d2/phs000001.v1.pht000011.v1.p1.c2.b.y.txt"],
    var_report := none, data_dict := none }

/-- Walkable filesystem with no entries at all. -/
def missingFS : WalkFS :=
  { pathExists := fun _ => false, walkFiles := fun _ => [],
    walk_missing := fun _ _ => rfl }

/-- Inventory with Subject and Sample special files (plus their data
dictionaries) but no Pedigree file. -/
def c10exFiles : List DbgapFile :=
  [mkDbgapFile "/d1/phs000001.v1.pht000021.v1.p1.A_Subject.MULTI.txt",
   mkDbgapFile "/d1/phs000001.v1.pht000021.v1.A_Subject.data_dict.xml",
   mkDbgapFile "/d1/phs000001.v1.pht000022.v1.p1.A_Sample.MULTI.txt",
   mkDbgapFile "/d1/phs000001.v1.pht000022.v1.A_Sample.data_dict.xml"]

/-- Subject set computed from `c10exFiles`. -/
def c10exSubj : FileSet :=
  { data_files := [mkDbgapFile "/d1/phs000001.v1.pht000021.v1.p1.A_Subject.MULTI.txt"],
    var_report := none,
    data_dict := some (mkDbgapFile "/d1/phs000001.v1.pht000021.v1.A_Subject.data_dict.xml") }

/-- Sample set computed from `c10exFiles`. -/
def c10exSamp : FileSet :=
  { data_files := [mkDbgapFile "/d1/phs000001.v1.pht000022.v1.p1.A_Sample.MULTI.txt"],
    var_report := none,
    data_dict := some (mkDbgapFile "/d1/phs000001.v1.pht000022.v1.A_Sample.data_dict.xml") }

/-- Candidate companions for the C2 witness: two identical data dictionaries
in two download directories plus the phenotype file to match. -/
def c2exFiles : List DbgapFile :=
  [mkDbgapFile "/d1/phs000001.v1.pht000005.v1.b.data_dict.xml",
   mkDbgapFile "/d2/phs000001.v1.pht000005.v1.b.data_dict.xml",
   mkDbgapFile "/d1/phs000001.v1.pht000005.v1.p1.c1.b.x.txt"]

/-- Reference phenotype file for the C2 and C3 witnesses. -/
def c2exRef : DbgapFile := mkDbgapFile "/d1/phs000001.v1.pht000005.v1.p1.c1.b.x.txt"

/-- First group built from `c8exFiles`: a single phenotype file. -/
def c8exSetA : FileSet :=
  { data_files := [mkDbgapFile "/d1/phs000001.v1.pht000003.v1.p1.c1.b.x.txt"],
    var_report := none,
    data_dict := some (mkDbgapFile "/d1/phs000001.v1.pht000003.v1.b.data_dict.xml") }

/-- Second group built from `c8exFiles`: three files, two of them with the
same basename. -/
def c8exSetB : FileSet :=
  { data_files := [mkDbgapFile "/d1/phs000001.v1.pht000004.v1.p1.c1.b.x.txt",
                   mkDbgapFile "/d2/phs000001.v1.pht000004.v1.p1.c1.b.x.txt",
                   mkDbgapFile "/d1/phs000001.v1.pht000004.v1.p1.c2.b.x.txt"],
    var_report := none,
    data_dict := some (mkDbgapFile "/d1/phs000001.v1.pht000004.v1.b.data_dict.xml") }

/-! ### Structural lemmas about the matcher -/

/-- Constraint satisfied by the substring consumed by one pattern element. -/
def pieceOk : RElem → List Char → Prop
  | .lit w, p => p = w
  | .exactly pr n, p => p.length = n ∧ p.all pr = true
  | .lazyRep pr m, p => m ≤ p.length ∧ p.all pr = true

theorem mmatch_flatten :
    ∀ (es : List RElem) (s : List Char) (ps : List (List Char)),
      mmatch es s = some ps → ps.flatten = s := by
  intro es
  induction es with
  | nil =>
    intro s ps h
    simp only [mmatch] at h
    split at h
    · obtain rfl : ([] : List (List Char)) = ps := by simpa using h
      simpa using (by assumption : s = [])
    · exact absurd h (by simp)
  | cons e es ih =>
    cases e with
    | lit w =>
      intro s ps h
      simp only [mmatch] at h
      split at h
      · obtain ⟨ps', hps', rfl⟩ := Option.map_eq_some'.mp h
        have := ih _ _ hps'
        simp only [List.flatten_cons, this]
        conv_rhs => rw [← List.take_append_drop w.length s]
        rw [(by assumption : s.take w.length = w)]
      · exact absurd h (by simp)
    | exactly pr n =>
      intro s ps h
      simp only [mmatch] at h
      split at h
      · obtain ⟨ps', hps', rfl⟩ := Option.map_eq_some'.mp h
        have := ih _ _ hps'
        simp only [List.flatten_cons, this]
        exact List.take_append_drop n s
      · exact absurd h (by simp)
    | lazyRep pr m =>
      intro s ps h
      obtain ⟨k, hk, hfk⟩ := List.exists_of_findSome?_eq_some h
      split at hfk
      · obtain ⟨ps', hps', rfl⟩ := Option.map_eq_some'.mp hfk
        have := ih _ _ hps'
        simp only [List.flatten_cons, this]
        exact List.take_append_drop k s
      · exact absurd hfk (by simp)

theorem mmatch_pieces :
    ∀ (es : List RElem) (s : List Char) (ps : List (List Char)),
      mmatch es s = some ps → List.Forall₂ pieceOk es ps := by
  intro es
  induction es with
  | nil =>
    intro s ps h
    simp only [mmatch] at h
    split at h
    · obtain rfl : ([] : List (List Char)) = ps := by simpa using h
      exact List.Forall₂.nil
    · exact absurd h (by simp)
  | cons e es ih =>
    cases e with
    | lit w =>
      intro s ps h
      simp only [mmatch] at h
      split at h
      · obtain ⟨ps', hps', rfl⟩ := Option.map_eq_some'.mp h
        exact List.Forall₂.cons rfl (ih _ _ hps')
      · exact absurd h (by simp)
    | exactly pr n =>
      intro s ps h
      simp only [mmatch] at h
      split at h
      · obtain ⟨ps', hps', rfl⟩ := Option.map_eq_some'.mp h
        exact List.Forall₂.cons (by assumption) (ih _ _ hps')
      · exact absurd h (by simp)
    | lazyRep pr m =>
      intro s ps h
      obtain ⟨k, hk, hfk⟩ := List.exists_of_findSome?_eq_some h
      split at hfk
      · obtain ⟨ps', hps', rfl⟩ := Option.map_eq_some'.mp hfk
        refine List.Forall₂.cons ⟨?_, (by assumption : (m ≤ k ∧ (s.take k).all pr = true)).2⟩
          (ih _ _ hps')
        have hk' : k ≤ s.length := by
          have := List.mem_range.mp hk
          omega
        have : (s.take k).length = k := by
          simp [List.length_take]
          omega
        rw [this]
        exact (by assumption : (m ≤ k ∧ (s.take k).all pr = true)).1
      · exact absurd hfk (by simp)

/-! ### Lemmas about substring occurrence -/

theorem startsW_iff (w : List Char) :
    ∀ s, startsW w s = true ↔ ∃ t, s = w ++ t := by
  induction w with
  | nil => intro s; simp [startsW]
  | cons a as ih =>
    intro s
    cases s with
    | nil =>
      simp only [startsW]
      constructor
      · intro h; exact absurd h (by simp)
      · rintro ⟨t, ht⟩; exact absurd ht (by simp)
    | cons b bs =>
      simp only [startsW, Bool.and_eq_true, beq_iff_eq, ih bs]
      constructor
      · rintro ⟨rfl, t, rfl⟩; exact ⟨t, rfl⟩
      · rintro ⟨t, ht⟩
        rw [List.cons_append] at ht
        obtain ⟨rfl, rfl⟩ : a = b ∧ bs = as ++ t := by
          constructor
          · exact (List.cons.injEq .. ▸ ht).1.symm
          · exact (List.cons.injEq .. ▸ ht).2
        exact ⟨rfl, t, rfl⟩

theorem occursIn_iff (w : List Char) :
    ∀ s, occursIn w s = true ↔ ∃ u v, s = u ++ w ++ v := by
  intro s
  induction s with
  | nil =>
    simp only [occursIn, startsW_iff]
    constructor
    · rintro ⟨t, ht⟩
      exact ⟨[], t, by simpa using ht⟩
    · rintro ⟨u, v, huv⟩
      have hu : u = [] := by
        cases u with
        | nil => rfl
        | cons x xs => exact absurd huv (by simp)
      subst hu
      exact ⟨v, by simpa using huv⟩
  | cons b bs ih =>
    simp only [occursIn, Bool.or_eq_true, startsW_iff, ih]
    constructor
    · rintro (⟨t, ht⟩ | ⟨u, v, huv⟩)
      · exact ⟨[], t, by simpa using ht⟩
      · exact ⟨b :: u, v, by simp [huv]⟩
    · rintro ⟨u, v, huv⟩
      cases u with
      | nil =>
        exact Or.inl ⟨v, by simpa using huv⟩
      | cons x xs =>
        right
        refine ⟨xs, v, ?_⟩
        have := (List.cons.injEq .. ▸ (by simpa using huv : b :: bs = x :: (xs ++ w ++ v))).2
        exact this

theorem occursIn_append_right {w y : List Char} (x : List Char)
    (h : occursIn w y = true) : occursIn w (x ++ y) = true := by
  obtain ⟨u, v, rfl⟩ := (occursIn_iff w y).mp h
  exact (occursIn_iff w _).mpr ⟨x ++ u, v, by simp⟩

theorem occursIn_append_left {w x : List Char} (y : List Char)
    (h : occursIn w x = true) : occursIn w (x ++ y) = true := by
  obtain ⟨u, v, rfl⟩ := (occursIn_iff w x).mp h
  exact (occursIn_iff w _).mpr ⟨u, v ++ y, by simp⟩

theorem mem_of_occursIn {w s : List Char} (h : occursIn w s = true) :
    ∀ c ∈ w, c ∈ s := by
  obtain ⟨u, v, rfl⟩ := (occursIn_iff w s).mp h
  intro c hc
  simp [hc]

theorem startsW_append_split (w : List Char) :
    ∀ (u v : List Char), startsW w (u ++ v) = true →
      (w.length ≤ u.length ∧ startsW w u = true) ∨
      (w = u ++ w.drop u.length ∧ startsW (w.drop u.length) v = true) := by
  induction w with
  | nil =>
    intro u v _
    cases u with
    | nil => exact Or.inr ⟨rfl, by simp [startsW]⟩
    | cons x xs => exact Or.inl ⟨by simp, by simp [startsW]⟩
  | cons a as ih =>
    intro u v h
    cases u with
    | nil => exact Or.inr ⟨rfl, h⟩
    | cons b bs =>
      rw [List.cons_append] at h
      simp only [startsW, Bool.and_eq_true, beq_iff_eq] at h
      obtain ⟨rfl, h2⟩ := h
      rcases ih bs v h2 with ⟨hle, hsw⟩ | ⟨heq, hsw⟩
      · exact Or.inl ⟨by simpa using Nat.succ_le_succ hle,
          by simp [startsW, hsw]⟩
      · refine Or.inr ⟨?_, ?_⟩
        · conv_lhs => rw [show a :: as = a :: (bs ++ as.drop bs.length) from by rw [← heq]]
          simp
        · simpa using hsw

theorem occursIn_append_split (w : List Char) :
    ∀ (x y : List Char), occursIn w (x ++ y) = true →
      occursIn w x = true ∨ occursIn w y = true ∨
      ∃ w1 w2, w = w1 ++ w2 ∧ w1 ≠ [] ∧ w2 ≠ [] ∧
        (∃ p, x = p ++ w1) ∧ (∃ t, y = w2 ++ t) := by
  intro x
  induction x with
  | nil =>
    intro y h
    exact Or.inr (Or.inl (by simpa using h))
  | cons c x' ih =>
    intro y h
    rw [List.cons_append] at h
    simp only [occursIn, Bool.or_eq_true] at h
    rcases h with hsw | hrest
    · rcases startsW_append_split w (c :: x') y (by rwa [List.cons_append]) with
        ⟨hle, hsw'⟩ | ⟨heq, hsw'⟩
      · left
        simp [occursIn, hsw']
      · by_cases hw2 : w.drop (c :: x').length = []
        · left
          have hwhole : w = c :: x' := by rw [heq, hw2, List.append_nil]
          have : startsW w (c :: x') = true :=
            (startsW_iff w _).mpr ⟨[], by rw [hwhole, List.append_nil]⟩
          simp [occursIn, this]
        · right; right
          refine ⟨c :: x', w.drop (c :: x').length, heq, by simp, hw2, ⟨[], by simp⟩, ?_⟩
          exact (startsW_iff _ y).mp hsw'
    · rcases ih y hrest with h1 | h2 | ⟨w1, w2, hw, hne1, hne2, ⟨p, hp⟩, ht⟩
      · left
        simp [occursIn, h1]
      · right; left; exact h2
      · right; right
        exact ⟨w1, w2, hw, hne1, hne2, ⟨c :: p, by simp [hp]⟩, ht⟩

theorem mem_last_of_suffix_block {x p w1 q : List Char} {d : Char}
    (hx : x = p ++ w1) (hw : w1 ≠ []) (hd : x = q ++ [d]) : d ∈ w1 := by
  rcases List.eq_nil_or_concat w1 with rfl | ⟨L, b, rfl⟩
  · exact absurd rfl hw
  · have h1 : x.getLast? = some b := by
      rw [hx, List.concat_eq_append, ← List.append_assoc]
      exact List.getLast?_concat _
    have h2 : x.getLast? = some d := by
      rw [hd]; exact List.getLast?_concat _
    have : b = d := by
      have := h1.symm.trans h2
      simpa using this
    subst this
    simp [List.concat_eq_append]

theorem mem_head_of_block_app {y w2 t rest : List Char} {d : Char}
    (hy : y = w2 ++ t) (hw : w2 ≠ []) (hd : y = d :: rest) : d ∈ w2 := by
  cases w2 with
  | nil => exact absurd rfl hw
  | cons h w2' =>
    have : h = d := by
      have := hy.symm.trans hd
      simpa using (List.cons.injEq .. ▸ this).1
    subst this
    simp

/-! ### Decomposition of a successful `special` match -/

theorem special_pieces_shape (s : List Char) (ps : List (List Char))
    (h : mmatch specialElems s = some ps) :
    ∃ d1 v1 d2 v2 pnum base mid,
      ps = ["phs".toList, d1, ".v".toList, v1, ".pht".toList, d2, ".v".toList, v2,
            ".p".toList, pnum, ".".toList, base, ".MULTI".toList, mid, "txt".toList] ∧
      d1.all Char.isDigit = true ∧ v1.all Char.isDigit = true ∧
      d2.all Char.isDigit = true ∧ v2.all Char.isDigit = true ∧
      pnum.all Char.isDigit = true ∧ mid.length = 1 ∧
      s = ps.flatten := by
  have hf := (mmatch_flatten _ _ _ h).symm
  have hp := mmatch_pieces _ _ _ h
  rw [show specialElems =
    [.lit "phs".toList, .exactly Char.isDigit 6, .lit ".v".toList, .lazyRep Char.isDigit 1,
     .lit ".pht".toList, .exactly Char.isDigit 6, .lit ".v".toList, .lazyRep Char.isDigit 1,
     .lit ".p".toList, .lazyRep Char.isDigit 1, .lit ".".toList, .lazyRep anyCh 1,
     .lit ".MULTI".toList, .exactly anyCh 1, .lit "txt".toList] from rfl] at hp
  simp only [List.forall₂_cons_left_iff, List.forall₂_nil_left_iff] at hp
  obtain ⟨p0, u0, h0, ⟨p1, u1, h1, ⟨p2, u2, h2, ⟨p3, u3, h3, ⟨p4, u4, h4, ⟨p5, u5, h5,
    ⟨p6, u6, h6, ⟨p7, u7, h7, ⟨p8, u8, h8, ⟨p9, u9, h9, ⟨p10, u10, h10, ⟨p11, u11, h11,
    ⟨p12, u12, h12, ⟨p13, u13, h13, ⟨p14, u14, h14, hu14, rfl⟩, rfl⟩, rfl⟩, rfl⟩, rfl⟩,
    rfl⟩, rfl⟩, rfl⟩, rfl⟩, rfl⟩, rfl⟩, rfl⟩, rfl⟩, rfl⟩, rfl⟩ := hp
  simp only [pieceOk] at h0 h1 h2 h3 h4 h5 h6 h7 h8 h9 h10 h11 h12 h13 h14
  subst hu14
  subst h0; subst h2; subst h4; subst h6; subst h8; subst h10; subst h12; subst h14
  exact ⟨p1, p3, p5, p7, p9, p11, p13, rfl, h1.2, h3.2, h5.2, h7.2, h9.2, h13.1, hf⟩

/-- Characters making up the `dbgap_id.pN.` prefix of a special basename:
only the literal letters `p`, `h`, `s`, `v`, `t`, dots and digits.  A word
containing a character outside that set cannot occur in the prefix. -/
theorem not_occursIn_idPart (cat : List Char) (c0 : Char) (hc0 : c0 ∈ cat)
    (hc0lit : c0 ∉ (['p', 'h', 's', '.', 'v', 't'] : List Char))
    (hc0dig : c0.isDigit = false)
    (d1 v1 d2 v2 pnum : List Char)
    (h1 : d1.all Char.isDigit = true) (h3 : v1.all Char.isDigit = true)
    (h5 : d2.all Char.isDigit = true) (h7 : v2.all Char.isDigit = true)
    (h9 : pnum.all Char.isDigit = true) :
    occursIn cat ("phs".toList ++ (d1 ++ (".v".toList ++ (v1 ++ (".pht".toList ++
      (d2 ++ (".v".toList ++ (v2 ++ (".p".toList ++ (pnum ++ ".".toList)))))))))) ≠ true := by
  intro hocc
  have hmem := mem_of_occursIn hocc c0 hc0
  simp only [List.mem_append] at hmem
  have hdig : ∀ (l : List Char), l.all Char.isDigit = true → c0 ∈ l → False := by
    intro l hl hc
    rw [List.all_eq_true] at hl
    have := hl c0 hc
    rw [hc0dig] at this
    exact absurd this (by decide)
  have hlit : ∀ (w : String), (∀ c ∈ w.toList, c ∈ (['p', 'h', 's', '.', 'v', 't'] : List Char)) →
      c0 ∈ w.toList → False := by
    intro w hw hc
    exact hc0lit (hw c0 hc)
  rcases hmem with hx | hx | hx | hx | hx | hx | hx | hx | hx | hx | hx
  · exact hlit "phs" (by decide) hx
  · exact hdig d1 h1 hx
  · exact hlit ".v" (by decide) hx
  · exact hdig v1 h3 hx
  · exact hlit ".pht" (by decide) hx
  · exact hdig d2 h5 hx
  · exact hlit ".v" (by decide) hx
  · exact hdig v2 h7 hx
  · exact hlit ".p" (by decide) hx
  · exact hdig pnum h9 hx
  · exact hlit "." (by decide) hx

/-- Characters of the `.MULTI<any>txt` tail of a special basename: the fixed
letters plus at most one arbitrary character, so a word with two distinct
characters outside the fixed set cannot occur in it. -/
theorem not_occursIn_tailPart (cat : List Char) (c1 c2 : Char) (hne : c1 ≠ c2)
    (hm1 : c1 ∈ cat) (hm2 : c2 ∈ cat)
    (hf1 : c1 ∉ (['.', 'M', 'U', 'L', 'T', 'I', 't', 'x'] : List Char))
    (hf2 : c2 ∉ (['.', 'M', 'U', 'L', 'T', 'I', 't', 'x'] : List Char))
    (mid : List Char) (hm : mid.length = 1) :
    occursIn cat (".MULTI".toList ++ (mid ++ "txt".toList)) ≠ true := by
  intro hocc
  obtain ⟨m, rfl⟩ : ∃ m, mid = [m] := by
    cases mid with
    | nil => exact absurd hm (by simp)
    | cons a l =>
      cases l with
      | nil => exact ⟨a, rfl⟩
      | cons b l' => exact absurd hm (by simp)
  have g : ∀ c ∈ cat, c ∉ (['.', 'M', 'U', 'L', 'T', 'I', 't', 'x'] : List Char) → c = m := by
    intro c hc hcf
    have hmem := mem_of_occursIn hocc c hc
    simp only [List.mem_append] at hmem
    rcases hmem with hx | hx | hx
    · exact absurd ((show ∀ d ∈ ".MULTI".toList,
        d ∈ (['.', 'M', 'U', 'L', 'T', 'I', 't', 'x'] : List Char) from by decide) c hx) hcf
    · simpa using hx
    · exact absurd ((show ∀ d ∈ "txt".toList,
        d ∈ (['.', 'M', 'U', 'L', 'T', 'I', 't', 'x'] : List Char) from by decide) c hx) hcf
  exact hne ((g c1 hm1 hf1).trans (g c2 hm2 hf2).symm)

/-- Core of the special-set claim: for a word avoiding the fixed alphabet of
the non-base parts of the `special` pattern (witnessed by the characters
`c0`, `c1`, `c2` and the absence of dots), occurrence in the whole matched
basename is equivalent to occurrence in the `base` capture. -/
theorem special_contains_core (cat : List Char)
    (c0 : Char) (hc0 : c0 ∈ cat)
    (hc0lit : c0 ∉ (['p', 'h', 's', '.', 'v', 't'] : List Char))
    (hc0dig : c0.isDigit = false)
    (c1 c2 : Char) (hne : c1 ≠ c2) (hm1 : c1 ∈ cat) (hm2 : c2 ∈ cat)
    (hf1 : c1 ∉ (['.', 'M', 'U', 'L', 'T', 'I', 't', 'x'] : List Char))
    (hf2 : c2 ∉ (['.', 'M', 'U', 'L', 'T', 'I', 't', 'x'] : List Char))
    (hdot : '.' ∉ cat)
    (d1 v1 d2 v2 pnum base mid : List Char)
    (h1 : d1.all Char.isDigit = true) (h3 : v1.all Char.isDigit = true)
    (h5 : d2.all Char.isDigit = true) (h7 : v2.all Char.isDigit = true)
    (h9 : pnum.all Char.isDigit = true) (hmid : mid.length = 1) :
    occursIn cat
      (("phs".toList ++ (d1 ++ (".v".toList ++ (v1 ++ (".pht".toList ++
        (d2 ++ (".v".toList ++ (v2 ++ (".p".toList ++ (pnum ++ ".".toList)))))))))) ++
       (base ++ (".MULTI".toList ++ (mid ++ "txt".toList)))) =
    occursIn cat base := by
  apply Bool.eq_iff_iff.mpr
  constructor
  · intro hocc
    rcases occursIn_append_split cat _ _ hocc with hA | hrest | hstrad
    · exact absurd hA (not_occursIn_idPart cat c0 hc0 hc0lit hc0dig d1 v1 d2 v2 pnum
        h1 h3 h5 h7 h9)
    · rcases occursIn_append_split cat _ _ hrest with hB1 | hB2 | hstrad2
      · exact hB1
      · exact absurd hB2 (not_occursIn_tailPart cat c1 c2 hne hm1 hm2 hf1 hf2 mid hmid)
      · obtain ⟨w1, w2, hw, hne1, hne2, ⟨p, hp⟩, ⟨t, ht⟩⟩ := hstrad2
        have hdotw2 : '.' ∈ w2 :=
          mem_head_of_block_app ht hne2
            (show ".MULTI".toList ++ (mid ++ "txt".toList) =
              '.' :: ("MULTI".toList ++ (mid ++ "txt".toList)) from rfl)
        exact absurd (hw ▸ List.mem_append_right w1 hdotw2) hdot
    · obtain ⟨w1, w2, hw, hne1, hne2, ⟨p, hp⟩, ⟨t, ht⟩⟩ := hstrad
      have hconcat : "phs".toList ++ (d1 ++ (".v".toList ++ (v1 ++ (".pht".toList ++
          (d2 ++ (".v".toList ++ (v2 ++ (".p".toList ++ (pnum ++ ".".toList))))))))) =
          ("phs".toList ++ d1 ++ ".v".toList ++ v1 ++ ".pht".toList ++ d2 ++ ".v".toList ++
            v2 ++ ".p".toList ++ pnum) ++ ['.'] := by
        simp [List.append_assoc]
      have hdotw1 : '.' ∈ w1 := mem_last_of_suffix_block hp hne1 hconcat
      exact absurd (hw ▸ List.mem_append_left w2 hdotw1) hdot
  · intro hocc
    exact occursIn_append_right _ (occursIn_append_left _ hocc)

/-! ### Characterization of the classifier -/

/-- Observation used throughout: because the loop of `_set_file_type` keeps
overwriting, the final result is the last matching pattern in dictionary
order, i.e. patterns are effectively consulted in reverse priority order
`special`, `var_report`, `phenotype`, `data_dict`. -/
theorem set_file_type_cases (b : String) :
    _set_file_type b =
      match runPat specialElems b with
      | some ps => some ("special", ps)
      | none =>
        match runPat varReportElems b with
        | some ps => some ("var_report", ps)
        | none =>
          match runPat phenotypeElems b with
          | some ps => some ("phenotype", ps)
          | none =>
            match runPat dataDictElems b with
            | some ps => some ("data_dict", ps)
            | none => none := by
  unfold _set_file_type dbgap_re_list
  simp only [List.foldl_cons, List.foldl_nil]

/-- The classifier labels a basename `special` exactly when the `special`
pattern matches, and then stores the pieces of that match. -/
theorem set_file_type_special_iff (b : String) (ps : List (List Char)) :
    _set_file_type b = some ("special", ps) ↔ runPat specialElems b = some ps := by
  rw [set_file_type_cases b]
  rcases h4 : runPat specialElems b with _ | ps4
  · constructor
    · intro h
      exfalso
      rcases h3 : runPat varReportElems b with _ | ps3 <;> rw [h3] at h
      · rcases h2 : runPat phenotypeElems b with _ | ps2 <;> rw [h2] at h
        · rcases h1 : runPat dataDictElems b with _ | ps1 <;> rw [h1] at h
          · exact Option.noConfusion h
          · have : ("data_dict" : String) = "special" := congrArg Prod.fst (Option.some.inj h)
            exact absurd this (by decide)
        · have : ("phenotype" : String) = "special" := congrArg Prod.fst (Option.some.inj h)
          exact absurd this (by decide)
      · have : ("var_report" : String) = "special" := congrArg Prod.fst (Option.some.inj h)
        exact absurd this (by decide)
    · intro h
      exact Option.noConfusion h
  · constructor
    · intro h
      exact congrArg some (congrArg Prod.snd (Option.some.inj h))
    · intro h
      rw [Option.some.inj h]

theorem toList_asString (l : List Char) : (l.asString).toList = l := rfl

/-- For a record classified `special` and one of the three special
categories, the code test `category in f.basename` coincides with the
specification wording: `category` occurs in the `base` capture. -/
theorem special_strIn_basename_eq_base (cat : String)
    (hcat : cat = "Subject" ∨ cat = "Sample" ∨ cat = "Pedigree")
    (f : DbgapFile) (hf : f.fileType = some "special") :
    strIn cat f.basename = ((specBaseCapture f).map (fun b => strIn cat b)).getD false := by
  obtain ⟨kp, hkp⟩ : ∃ kp, _set_file_type f.basename = some kp := by
    rcases h : _set_file_type f.basename with _ | kp
    · rw [DbgapFile.fileType, h] at hf
      exact Option.noConfusion hf
    · exact ⟨kp, rfl⟩
  have hk : kp.1 = "special" := by
    rw [DbgapFile.fileType, hkp] at hf
    simpa using hf
  have hspec : runPat specialElems f.basename = some kp.2 := by
    apply (set_file_type_special_iff _ _).mp
    rw [hkp, ← hk]
  obtain ⟨d1, v1, d2, v2, pnum, base, mid, hps, h1, h3, h5, h7, h9, hmid, hflat⟩ :=
    special_pieces_shape _ _ hspec
  have hcap : specBaseCapture f = some (base.asString) := by
    rw [specBaseCapture, hkp]
    simp only [hk, if_pos]
    rw [hps]
    rfl
  have hcore : occursIn cat.toList
      (("phs".toList ++ (d1 ++ (".v".toList ++ (v1 ++ (".pht".toList ++
        (d2 ++ (".v".toList ++ (v2 ++ (".p".toList ++ (pnum ++ ".".toList)))))))))) ++
       (base ++ (".MULTI".toList ++ (mid ++ "txt".toList)))) =
      occursIn cat.toList base := by
    rcases hcat with rfl | rfl | rfl
    · exact special_contains_core _ 'S' (by decide) (by decide) (by decide)
        'S' 'u' (by decide) (by decide) (by decide) (by decide) (by decide) (by decide)
        d1 v1 d2 v2 pnum base mid h1 h3 h5 h7 h9 hmid
    · exact special_contains_core _ 'S' (by decide) (by decide) (by decide)
        'S' 'a' (by decide) (by decide) (by decide) (by decide) (by decide) (by decide)
        d1 v1 d2 v2 pnum base mid h1 h3 h5 h7 h9 hmid
    · exact special_contains_core _ 'P' (by decide) (by decide) (by decide)
        'P' 'e' (by decide) (by decide) (by decide) (by decide) (by decide) (by decide)
        d1 v1 d2 v2 pnum base mid h1 h3 h5 h7 h9 hmid
  rw [hcap]
  show occursIn cat.toList f.basename.toList = strIn cat base.asString
  rw [hflat, hps]
  have hassoc : (["phs".toList, d1, ".v".toList, v1, ".pht".toList, d2, ".v".toList, v2,
      ".p".toList, pnum, ".".toList, base, ".MULTI".toList, mid, "txt".toList] :
        List (List Char)).flatten =
      (("phs".toList ++ (d1 ++ (".v".toList ++ (v1 ++ (".pht".toList ++
        (d2 ++ (".v".toList ++ (v2 ++ (".p".toList ++ (pnum ++ ".".toList)))))))))) ++
       (base ++ (".MULTI".toList ++ (mid ++ "txt".toList)))) := by
    simp [List.append_assoc]
  rw [hassoc, hcore]
  rfl

/-- Pointwise form of the selection equivalence, lifted to the filter of
line 160. -/
theorem specialFiles_eq_base_filter (cat : String)
    (hcat : cat = "Subject" ∨ cat = "Sample" ∨ cat = "Pedigree")
    (files : List DbgapFile) :
    specialFiles files cat =
      files.filter (fun f => f.fileType == some "special" &&
        ((specBaseCapture f).map (fun b => strIn cat b)).getD false) := by
  rw [specialFiles]
  apply List.filter_congr
  intro f _
  cases hft : (f.fileType == some "special") with
  | false => simp [hft]
  | true =>
    simp only [hft, Bool.true_and]
    exact special_strIn_basename_eq_base cat hcat f (by simpa using hft)

/-- The special-set constructor returns `None` exactly when the selection of
line 160 is empty. -/
theorem special_file_set_none_iff (fs : FileContents) (files : List DbgapFile)
    (pat : String) :
    _get_special_file_set fs files pat = .ok none ↔ specialFiles files pat = [] := by
  constructor
  · intro hres
    rcases hsf : specialFiles files pat with _ | ⟨s0, rest⟩
    · rfl
    · exfalso
      rw [_get_special_file_set, hsf] at hres
      dsimp only at hres
      rcases hcd : _check_diffs fs (s0 :: rest) with e | u
      · rw [hcd] at hres
        exact Except.noConfusion hres
      · rw [hcd] at hres
        cases u
        rcases hvr : _get_file_match fs files s0 "var_report" true false with e | vr
        · rw [hvr] at hres
          exact Except.noConfusion hres
        · rw [hvr] at hres
          rcases hdd : _get_file_match fs files s0 "data_dict" true true with e | dd
          · rw [hdd] at hres
            exact Except.noConfusion hres
          · rw [hdd] at hres
            simp at hres
  · intro hsf
    rw [_get_special_file_set, hsf]

/-! ### Behaviour of `_check_diffs` and `_get_file_match` -/

theorem checkDiffsLoop_ok_iff (fs : FileContents) (a : DbgapFile) :
    ∀ rest, checkDiffsLoop fs a rest = .ok () ↔
      ∀ b ∈ rest, fs b.full_path = fs a.full_path := by
  intro rest
  induction rest with
  | nil => simp [checkDiffsLoop]
  | cons b bs ih =>
    rw [checkDiffsLoop]
    split
    · rw [ih]
      constructor
      · intro h c hc
        rcases List.mem_cons.mp hc with rfl | hc'
        · exact (by assumption : fs a.full_path = fs c.full_path).symm
        · exact h c hc'
      · intro h c hc
        exact h c (List.mem_cons_of_mem b hc)
    · constructor
      · intro h
        exact Except.noConfusion h
      · intro h
        exact absurd (h b (List.mem_cons_self b bs)).symm (by assumption)

theorem checkDiffsLoop_error (fs : FileContents) (a : DbgapFile) :
    ∀ rest, (∃ b ∈ rest, fs b.full_path ≠ fs a.full_path) →
      ∃ b ∈ rest, fs b.full_path ≠ fs a.full_path ∧
        checkDiffsLoop fs a rest = .error (.filesDifferent a.full_path b.full_path) := by
  intro rest
  induction rest with
  | nil => rintro ⟨b, hb, _⟩; exact absurd hb (by simp)
  | cons b bs ih =>
    rintro ⟨c, hc, hcne⟩
    rw [checkDiffsLoop]
    split
    · have hbeq : fs a.full_path = fs b.full_path := by assumption
      have : ∃ c ∈ bs, fs c.full_path ≠ fs a.full_path := by
        rcases List.mem_cons.mp hc with rfl | hc'
        · exact absurd hbeq.symm hcne
        · exact ⟨c, hc', hcne⟩
      obtain ⟨d, hd, hdne, hres⟩ := ih this
      exact ⟨d, List.mem_cons_of_mem b hd, hdne, hres⟩
    · exact ⟨b, List.mem_cons_self b bs, fun h => (by assumption : ¬ fs a.full_path = fs b.full_path) h.symm, rfl⟩

/-- Success case of `_get_file_match` with a non-empty candidate list whose
members all have identical contents: the first candidate (in inventory
order) is returned. -/
theorem get_file_match_all_eq (fs : FileContents) (files : List DbgapFile)
    (ref : DbgapFile) (t idm : String) (me : Bool) (c : DbgapFile) (cs : List DbgapFile)
    (hid : ref.dbgapId = some idm)
    (hc : companionCands files t idm = c :: cs)
    (heq : ∀ b ∈ c :: cs, fs b.full_path = fs c.full_path) :
    _get_file_match fs files ref t true me = .ok (some c) := by
  rw [_get_file_match, hid]
  simp only [hc]
  have hlen : ((c :: cs).length == 0 && !me) = false := by simp
  rw [hlen]
  simp only [Bool.false_eq_true, if_false, if_true]
  have hcd : _check_diffs fs (c :: cs) = .ok () := by
    rw [_check_diffs, checkDiffsLoop_ok_iff]
    intro b hb
    exact heq b (List.mem_cons_of_mem c hb)
  rw [hcd]

/-- Failure case of `_get_file_match` with a non-empty candidate list
containing two members with different contents: a `ValueError` naming two
differing candidate paths. -/
theorem get_file_match_diff (fs : FileContents) (files : List DbgapFile)
    (ref : DbgapFile) (t idm : String) (me : Bool) (c : DbgapFile) (cs : List DbgapFile)
    (hid : ref.dbgapId = some idm)
    (hc : companionCands files t idm = c :: cs)
    (hdiff : ∃ a ∈ c :: cs, ∃ b ∈ c :: cs, fs a.full_path ≠ fs b.full_path) :
    ∃ p ∈ (c :: cs).map (fun y => y.full_path), ∃ q ∈ (c :: cs).map (fun y => y.full_path),
      fs p ≠ fs q ∧
      _get_file_match fs files ref t true me = .error (.filesDifferent p q) := by
  have hex : ∃ b ∈ cs, fs b.full_path ≠ fs c.full_path := by
    by_contra hno
    push_neg at hno
    obtain ⟨a, ha, b, hb, hab⟩ := hdiff
    have key : ∀ d ∈ c :: cs, fs d.full_path = fs c.full_path := by
      intro d hd
      rcases List.mem_cons.mp hd with rfl | hd'
      · rfl
      · exact hno d hd'
    exact hab ((key a ha).trans (key b hb).symm)
  obtain ⟨b, hb, hbne, hres⟩ := checkDiffsLoop_error fs c cs hex
  refine ⟨c.full_path, by simp, b.full_path, ?_, fun h => hbne h.symm, ?_⟩
  · simp only [List.map_cons, List.mem_cons]
    exact Or.inr (List.mem_map_of_mem _ hb)
  · rw [_get_file_match, hid]
    simp only [hc]
    have hlen : ((c :: cs).length == 0 && !me) = false := by simp
    rw [hlen]
    simp only [Bool.false_eq_true, if_false, if_true]
    have hcd : _check_diffs fs (c :: cs) = .error (.filesDifferent c.full_path b.full_path) := by
      rw [_check_diffs]
      exact hres
    rw [hcd]

/-- Zero-candidate case of `_get_file_match`: with `must_exist` the call
falls through to `matches[0]` and dies with an IndexError; without it the
call returns `None`. -/
theorem get_file_match_empty (fs : FileContents) (files : List DbgapFile)
    (ref : DbgapFile) (t idm : String) (cd : Bool)
    (hid : ref.dbgapId = some idm)
    (hc : companionCands files t idm = []) :
    _get_file_match fs files ref t cd true = .error .indexError ∧
    _get_file_match fs files ref t cd false = .ok none := by
  constructor
  · rw [_get_file_match, hid]
    simp only [hc]
    cases cd
    · simp [_check_diffs]
    · simp [_check_diffs]
  · rw [_get_file_match, hid]
    simp only [hc]
    simp

/-! ### Behaviour of the phenotype-set checking stage -/

theorem dupCheck_ok_iff (bs : List String) :
    dupCheck bs = .ok () ↔ ∀ y ∈ bs, bs.count y ≤ 1 := by
  rw [dupCheck]
  rcases hf : bs.find? (fun y => decide (1 < bs.count y)) with _ | y
  · simp only [List.find?_eq_none] at hf
    constructor
    · intro _ y hy
      have := hf y hy
      simpa using this
    · intro _
      rfl
  · constructor
    · intro h
      exact Except.noConfusion h
    · intro h
      exfalso
      have h1 : 1 < bs.count y := by simpa using List.find?_some hf
      have h2 : y ∈ bs := List.mem_of_find?_eq_some hf
      exact absurd (h y h2) (by omega)

theorem checkPhenotypeFileSet_ok_iff (n : Nat) (x : FileSet) :
    checkPhenotypeFileSet n x = .ok () ↔
      x.data_files.length = n ∧
      ∀ y ∈ x.data_files.map (fun z => z.basename),
        (x.data_files.map (fun z => z.basename)).count y ≤ 1 := by
  rw [checkPhenotypeFileSet]
  by_cases hlen : x.data_files.length = n
  · rw [if_neg (by omega)]
    rw [dupCheck_ok_iff]
    constructor
    · intro h
      exact ⟨hlen, h⟩
    · intro h
      exact h.2
  · rw [if_pos (by omega)]
    constructor
    · intro h
      exact Except.noConfusion h
    · intro h
      exact absurd h.1 hlen

theorem checkSetsLoop_ok_iff (n : Nat) :
    ∀ sets, checkSetsLoop n sets = .ok () ↔
      ∀ s ∈ sets, checkPhenotypeFileSet n s = .ok () := by
  intro sets
  induction sets with
  | nil => simp [checkSetsLoop]
  | cons x xs ih =>
    rw [checkSetsLoop]
    rcases hx : checkPhenotypeFileSet n x with e | u
    · constructor
      · intro h
        exact Except.noConfusion h
      · intro h
        rw [h x (List.mem_cons_self x xs)] at hx
        exact Except.noConfusion hx
    · cases u
      rw [ih]
      constructor
      · intro h s hs
        rcases List.mem_cons.mp hs with rfl | hs'
        · exact hx
        · exact h s hs'
      · intro h s hs
        exact h s (List.mem_cons_of_mem x hs)

/-- When every set is duplicate-free, a set of the wrong cardinality makes
the loop fail with the ValueError naming the basenames of the first
offending set and the expected count. -/
theorem checkSetsLoop_card_error (n : Nat) :
    ∀ sets, (∀ s ∈ sets, ∀ y ∈ s.data_files.map (fun z => z.basename),
        (s.data_files.map (fun z => z.basename)).count y ≤ 1) →
      (∃ s ∈ sets, s.data_files.length ≠ n) →
      ∃ s ∈ sets, s.data_files.length ≠ n ∧
        checkSetsLoop n sets =
          .error (.setSizeMismatch (s.data_files.map (fun z => z.basename)) n) := by
  intro sets
  induction sets with
  | nil =>
    rintro _ ⟨s, hs, _⟩
    exact absurd hs (by simp)
  | cons x xs ih =>
    intro hnodup hex
    by_cases hxlen : x.data_files.length = n
    · have hx : checkPhenotypeFileSet n x = .ok () := by
        rw [checkPhenotypeFileSet_ok_iff]
        exact ⟨hxlen, hnodup x (List.mem_cons_self x xs) ⟩
      have hex' : ∃ s ∈ xs, s.data_files.length ≠ n := by
        obtain ⟨s, hs, hsne⟩ := hex
        rcases List.mem_cons.mp hs with rfl | hs'
        · exact absurd hxlen hsne
        · exact ⟨s, hs', hsne⟩
      obtain ⟨s, hs, hsne, hres⟩ :=
        ih (fun s hs => hnodup s (List.mem_cons_of_mem x hs)) hex'
      refine ⟨s, List.mem_cons_of_mem x hs, hsne, ?_⟩
      rw [checkSetsLoop, hx]
      exact hres
    · refine ⟨x, List.mem_cons_self x xs, hxlen, ?_⟩
      rw [checkSetsLoop, checkPhenotypeFileSet, if_pos hxlen]

/-- When every set has the right cardinality, a duplicate basename makes the
loop fail with the RuntimeError naming the first duplicated filename of the
first offending set. -/
theorem checkSetsLoop_dup_error (n : Nat) :
    ∀ sets, (∀ s ∈ sets, s.data_files.length = n) →
      (∃ s ∈ sets, ∃ y ∈ s.data_files.map (fun z => z.basename),
        1 < (s.data_files.map (fun z => z.basename)).count y) →
      ∃ s ∈ sets, ∃ y, y ∈ s.data_files.map (fun z => z.basename) ∧
        1 < (s.data_files.map (fun z => z.basename)).count y ∧
        checkSetsLoop n sets = .error (.duplicateFile y) := by
  intro sets
  induction sets with
  | nil =>
    rintro _ ⟨s, hs, _⟩
    exact absurd hs (by simp)
  | cons x xs ih =>
    intro hlen hex
    rcases hf : (x.data_files.map (fun z => z.basename)).find?
        (fun y => decide (1 < (x.data_files.map (fun z => z.basename)).count y)) with _ | y
    · have hxok : checkPhenotypeFileSet n x = .ok () := by
        rw [checkPhenotypeFileSet, if_neg (by simp [hlen x (List.mem_cons_self x xs)]),
          dupCheck, hf]
      have hex' : ∃ s ∈ xs, ∃ y ∈ s.data_files.map (fun z => z.basename),
          1 < (s.data_files.map (fun z => z.basename)).count y := by
        obtain ⟨s, hs, y, hy, hcy⟩ := hex
        rcases List.mem_cons.mp hs with rfl | hs'
        · rw [List.find?_eq_none] at hf
          exact absurd hcy (by simpa using hf y hy)
        · exact ⟨s, hs', y, hy, hcy⟩
      obtain ⟨s, hs, y, hy, hcy, hres⟩ :=
        ih (fun s hs => hlen s (List.mem_cons_of_mem x hs)) hex'
      refine ⟨s, List.mem_cons_of_mem x hs, y, hy, hcy, ?_⟩
      rw [checkSetsLoop, hxok]
      exact hres
    · refine ⟨x, List.mem_cons_self x xs, y, List.mem_of_find?_eq_some hf,
        by simpa using List.find?_some hf, ?_⟩
      rw [checkSetsLoop, checkPhenotypeFileSet,
        if_neg (by simp [hlen x (List.mem_cons_self x xs)]), dupCheck, hf]

/-- Success of the whole checking stage forces every set to have the maximal
cardinality and to be duplicate-free. -/
theorem checkPhenotypeFileSets_ok (sets : List FileSet)
    (h : checkPhenotypeFileSets sets = .ok ()) :
    ∀ s ∈ sets, ∀ t ∈ sets,
      (s.data_files.length = t.data_files.length ∧
       ∀ y ∈ s.data_files.map (fun z => z.basename),
         (s.data_files.map (fun z => z.basename)).count y ≤ 1) := by
  rw [checkPhenotypeFileSets] at h
  rcases hm : pyMax (sets.map (fun x => x.data_files.length)) with _ | n
  · rw [hm] at h
    exact Except.noConfusion h
  · rw [hm] at h
    rw [checkSetsLoop_ok_iff] at h
    intro s hs t ht
    have hsok := (checkPhenotypeFileSet_ok_iff n s).mp (h s hs)
    have htok := (checkPhenotypeFileSet_ok_iff n t).mp (h t ht)
    exact ⟨hsok.1.trans htok.1.symm, hsok.2⟩

/-- Success of `_get_phenotype_file_sets` passes the returned sets through
the checking stage. -/
theorem get_phenotype_file_sets_ok (fs : FileContents) (files : List DbgapFile)
    (sets : List FileSet) (h : _get_phenotype_file_sets fs files = .ok sets) :
    checkPhenotypeFileSets sets = .ok () := by
  rw [_get_phenotype_file_sets] at h
  rcases hb : buildSetsLoop fs files
      (files.filter fun f => f.fileType == some "phenotype")
      (dedupFirst ((files.filter fun f => f.fileType == some "phenotype").map
        fun f => (f.dbgapId).getD "")) with e | sets'
  · rw [hb] at h
    exact Except.noConfusion h
  · rw [hb] at h
    dsimp only at h
    rcases hc : checkPhenotypeFileSets sets' with e | u
    · rw [hc] at h
      exact Except.noConfusion h
    · cases u
      rw [hc] at h
      obtain rfl : sets' = sets := by simpa using h
      exact hc

/-! ### Behaviour of the consent-group validation -/

theorem consentSetCheck_ok_iff (n : Nat) (expected : List String) (s : FileSet) :
    consentSetCheck n expected s = .ok () ↔
      s.data_files.length = n ∧ consentMismatches expected s = [] := by
  rw [consentSetCheck]
  by_cases hlen : s.data_files.length = n
  · rw [if_neg (by omega)]
    rcases hm : consentMismatches expected s with _ | ⟨g, gs⟩
    · simp [hlen]
    · constructor
      · intro h
        exact Except.noConfusion h
      · intro h
        exact absurd h.2 (by simp)
  · rw [if_pos (by omega)]
    constructor
    · intro h
      exact Except.noConfusion h
    · intro h
      exact absurd h.1 hlen

theorem consentLoop_ok_iff (n : Nat) (expected : List String) :
    ∀ sets, consentLoop n expected sets = .ok () ↔
      ∀ s ∈ sets, consentSetCheck n expected s = .ok () := by
  intro sets
  induction sets with
  | nil => simp [consentLoop]
  | cons x xs ih =>
    rw [consentLoop]
    rcases hx : consentSetCheck n expected x with e | u
    · constructor
      · intro h
        exact Except.noConfusion h
      · intro h
        rw [h x (List.mem_cons_self x xs)] at hx
        exact Except.noConfusion hx
    · cases u
      rw [ih]
      constructor
      · intro h s hs
        rcases List.mem_cons.mp hs with rfl | hs'
        · exact hx
        · exact h s hs'
      · intro h s hs
        exact h s (List.mem_cons_of_mem x hs)

/-- When all sets pass the cardinality part, an aligned-mismatch makes the
loop fail with the RuntimeError naming the mismatching tokens of the first
offending set. -/
theorem consentLoop_mismatch_error (n : Nat) (expected : List String) :
    ∀ sets, (∀ s ∈ sets, s.data_files.length = n) →
      (∃ s ∈ sets, consentMismatches expected s ≠ []) →
      ∃ s ∈ sets, consentMismatches expected s ≠ [] ∧
        consentLoop n expected sets =
          .error (.missingConsentGroups (consentMismatches expected s)) := by
  intro sets
  induction sets with
  | nil =>
    rintro _ ⟨s, hs, _⟩
    exact absurd hs (by simp)
  | cons x xs ih =>
    intro hlen hex
    rcases hm : consentMismatches expected x with _ | ⟨g, gs⟩
    · have hxok : consentSetCheck n expected x = .ok () := by
        rw [consentSetCheck_ok_iff]
        exact ⟨hlen x (List.mem_cons_self x xs), hm⟩
      have hex' : ∃ s ∈ xs, consentMismatches expected s ≠ [] := by
        obtain ⟨s, hs, hsne⟩ := hex
        rcases List.mem_cons.mp hs with rfl | hs'
        · exact absurd hm hsne
        · exact ⟨s, hs', hsne⟩
      obtain ⟨s, hs, hsne, hres⟩ := ih (fun s hs => hlen s (List.mem_cons_of_mem x hs)) hex'
      refine ⟨s, List.mem_cons_of_mem x hs, hsne, ?_⟩
      rw [consentLoop, hxok]
      exact hres
    · refine ⟨x, List.mem_cons_self x xs, by simp [hm], ?_⟩
      rw [consentLoop, consentSetCheck,
        if_neg (by simp [hlen x (List.mem_cons_self x xs)]), hm]

/-- Unfolding of `_check_consent_groups` once the subject file has been read
successfully. -/
theorem check_consent_groups_eq (fs : FileContents) (subj : FileSet)
    (sets : List FileSet) (cvar : Option String) (f0 : DbgapFile) (rest : List DbgapFile)
    (vals : List String)
    (hdf : subj.data_files = f0 :: rest)
    (hv : consentValuesOf (fs f0.full_path) cvar = .ok vals) :
    _check_consent_groups fs subj sets cvar =
      consentLoop ((dedupFirst vals).filter (fun x => x != "0")).length
        (expectedTokens vals) sets := by
  rw [_check_consent_groups, hdf]
  dsimp only
  rw [hv]


/-- Empty aligned-mismatch list means every expected token occurs in the
basename aligned with it. -/
theorem consentMismatches_nil_iff (expected : List String) (s : FileSet) :
    consentMismatches expected s = [] ↔
      ∀ xy ∈ expected.zip (sortStrs (s.data_files.map (fun y => y.basename))),
        strIn xy.1 xy.2 = true := by
  rw [consentMismatches, List.filterMap_eq_nil_iff]
  constructor
  · intro h xy hxy
    have := h xy hxy
    by_contra hne
    rw [if_neg (by simpa using hne)] at this
    exact Option.noConfusion this
  · intro h xy hxy
    rw [if_pos (h xy hxy)]

/-! ### The claims -/

/-- C1 (counterexample): the basename
`phs000001.v1.pht000001.v1.p1.c1.b.MULTI.txt` matches both the `phenotype`
grammar and the `special` grammar and matches neither earlier grammar, so
under the claimed first-match priority it would be classified `phenotype`;
the code classifies it `special` (the loop has no `break`, so the last
match wins). -/
theorem claim_C1_counterexample :
    (_set_file_type "phs000001.v1.pht000001.v1.p1.c1.b.MULTI.txt").map Prod.fst =
      some "special" ∧
    (runPat phenotypeElems "phs000001.v1.pht000001.v1.p1.c1.b.MULTI.txt").isSome = true ∧
    (runPat dataDictElems "phs000001.v1.pht000001.v1.p1.c1.b.MULTI.txt").isSome = false :=
  ⟨rfl, rfl, rfl⟩

/-- C1 (amended): the classifier evaluates all four grammars in the fixed
dictionary order `data_dict`, `phenotype`, `var_report`, `special` and
assigns the file type of the last grammar that matches (equivalently,
grammars take priority in the reverse order `special`, `var_report`,
`phenotype`, `data_dict`); a basename matching none of the four grammars is
classified as unclassified (file type `None`, no captured fields). -/
theorem claim_C1 (b : String) :
    _set_file_type b =
      match runPat specialElems b with
      | some ps => some ("special", ps)
      | none =>
        match runPat varReportElems b with
        | some ps => some ("var_report", ps)
        | none =>
          match runPat phenotypeElems b with
          | some ps => some ("phenotype", ps)
          | none =>
            match runPat dataDictElems b with
            | some ps => some ("data_dict", ps)
            | none => none :=
  set_file_type_cases b

/-- C2: with at least one candidate companion and identity verification
enabled, the matcher fails with the ValueError naming two differing
candidate paths when any pair of candidates differs byte-for-byte, and
otherwise returns the first candidate in inventory order. -/
theorem claim_C2 (fs : FileContents) (files : List DbgapFile) (ref : DbgapFile)
    (t idm : String) (me : Bool)
    (hid : ref.dbgapId = some idm)
    (hne : companionCands files t idm ≠ []) :
    ((∃ a ∈ companionCands files t idm, ∃ b ∈ companionCands files t idm,
        fs a.full_path ≠ fs b.full_path) →
      ∃ p ∈ (companionCands files t idm).map (fun y => y.full_path),
        ∃ q ∈ (companionCands files t idm).map (fun y => y.full_path),
          fs p ≠ fs q ∧
          _get_file_match fs files ref t true me = .error (.filesDifferent p q)) ∧
    ((∀ a ∈ companionCands files t idm, ∀ b ∈ companionCands files t idm,
        fs a.full_path = fs b.full_path) →
      _get_file_match fs files ref t true me = .ok (companionCands files t idm).head?) := by
  rcases hc : companionCands files t idm with _ | ⟨c, cs⟩
  · exact absurd hc hne
  · constructor
    · intro hdiff
      exact get_file_match_diff fs files ref t idm me c cs hid hc hdiff
    · intro heq
      have := get_file_match_all_eq fs files ref t idm me c cs hid hc
        (fun b hb => heq b hb c (List.mem_cons_self c cs))
      rw [this]
      rfl

/-- C2 (witness): two byte-identical data dictionaries for the dataset of a
phenotype file; the matcher returns the first of them. -/
theorem claim_C2_witness :
    (c2exRef.dbgapId = some "phs000001.v1.pht000005.v1" ∧
     companionCands c2exFiles "data_dict" "phs000001.v1.pht000005.v1" ≠ [] ∧
     (∀ a ∈ companionCands c2exFiles "data_dict" "phs000001.v1.pht000005.v1",
        ∀ b ∈ companionCands c2exFiles "data_dict" "phs000001.v1.pht000005.v1",
          exFS a.full_path = exFS b.full_path)) ∧
    _get_file_match exFS c2exFiles c2exRef "data_dict" true true =
      .ok (companionCands c2exFiles "data_dict" "phs000001.v1.pht000005.v1").head? := by
  refine ⟨⟨rfl, by decide, by decide⟩, ?_⟩
  exact (claim_C2 exFS c2exFiles c2exRef "data_dict" "phs000001.v1.pht000005.v1" true
    rfl (by decide)).2 (by decide)

/-- C3: with zero candidate companions the matcher fails (the code falls
through to an IndexError on the empty candidate list) when the companion is
required, and returns `None` when it is not required. -/
theorem claim_C3 (fs : FileContents) (files : List DbgapFile) (ref : DbgapFile)
    (t idm : String) (cd : Bool)
    (hid : ref.dbgapId = some idm)
    (hzero : companionCands files t idm = []) :
    _get_file_match fs files ref t cd true = .error .indexError ∧
    _get_file_match fs files ref t cd false = .ok none :=
  get_file_match_empty fs files ref t idm cd hid hzero

/-- C3 (witness): no var_report exists for the dataset of the reference
file; the required lookup raises and the optional lookup returns `None`. -/
theorem claim_C3_witness :
    (c2exRef.dbgapId = some "phs000001.v1.pht000005.v1" ∧
     companionCands c2exFiles "var_report" "phs000001.v1.pht000005.v1" = []) ∧
    _get_file_match exFS c2exFiles c2exRef "var_report" true true = .error .indexError ∧
    _get_file_match exFS c2exFiles c2exRef "var_report" true false = .ok none := by
  refine ⟨⟨rfl, by decide⟩, ?_⟩
  exact claim_C3 exFS c2exFiles c2exRef "var_report" "phs000001.v1.pht000005.v1" true
    rfl (by decide)

/-- C4 (counterexample): in `c4exFiles` the second phenotype group has one
data file while the maximum is two, yet reconciliation does not fail with
the cardinality ValueError naming that group: the duplicate check of the
first group fires first and raises the duplicate-file RuntimeError. -/
theorem claim_C4_counterexample :
    _get_phenotype_file_sets exFS c4exFiles =
      .error (.duplicateFile "phs000001.v1.pht000001.v1.p1.c1.b.x.txt") ∧
    buildSetsLoop exFS c4exFiles c4exPheno c4exIds = .ok [c4exSetA, c4exSetB] ∧
    pyMax ([c4exSetA, c4exSetB].map fun x => x.data_files.length) = some 2 ∧
    c4exSetB.data_files.length = 1 :=
  ⟨rfl, rfl, rfl, rfl⟩

/-- C4 (amended): phenotype reconciliation computes `n` as the maximum data
file count over all groups; whenever some group has a different count the
checking stage fails; the failure is the cardinality error naming the first
offending group and `n` provided no duplicate-basename check of an earlier
group fires first; and when reconciliation succeeds every returned set has
the same number of data files. -/
theorem claim_C4 :
    (∀ (fs : FileContents) (files : List DbgapFile) (sets : List FileSet),
        _get_phenotype_file_sets fs files = .ok sets →
        ∀ s ∈ sets, ∀ u ∈ sets, s.data_files.length = u.data_files.length) ∧
    (∀ (sets : List FileSet) (n : Nat),
        pyMax (sets.map (fun x => x.data_files.length)) = some n →
        (∃ s ∈ sets, s.data_files.length ≠ n) →
        ∃ e, checkPhenotypeFileSets sets = .error e) ∧
    (∀ (sets : List FileSet) (n : Nat),
        pyMax (sets.map (fun x => x.data_files.length)) = some n →
        (∀ s ∈ sets, ∀ y ∈ s.data_files.map (fun z => z.basename),
          (s.data_files.map (fun z => z.basename)).count y ≤ 1) →
        (∃ s ∈ sets, s.data_files.length ≠ n) →
        ∃ s ∈ sets, s.data_files.length ≠ n ∧
          checkPhenotypeFileSets sets =
            .error (.setSizeMismatch (s.data_files.map (fun z => z.basename)) n)) := by
  refine ⟨?_, ?_, ?_⟩
  · intro fs files sets h s hs u hu
    exact ((checkPhenotypeFileSets_ok sets (get_phenotype_file_sets_ok fs files sets h))
      s hs u hu).1
  · intro sets n hm hex
    rcases hres : checkPhenotypeFileSets sets with e | u
    · exact ⟨e, rfl⟩
    · exfalso
      cases u
      obtain ⟨s, hs, hsne⟩ := hex
      rw [checkPhenotypeFileSets, hm, checkSetsLoop_ok_iff] at hres
      exact hsne ((checkPhenotypeFileSet_ok_iff n s).mp (hres s hs)).1
  · intro sets n hm hnodup hex
    obtain ⟨s, hs, hsne, hres⟩ := checkSetsLoop_card_error n sets hnodup hex
    refine ⟨s, hs, hsne, ?_⟩
    rw [checkPhenotypeFileSets, hm]
    exact hres

/-- C4 (witness): two duplicate-free sets of sizes one and two; the checking
stage fails with the cardinality error naming the smaller set and the
maximum two. -/
theorem claim_C4_witness :
    (pyMax ([c4exSetB, c5okSet].map (fun x => x.data_files.length)) = some 2 ∧
     (∀ s ∈ [c4exSetB, c5okSet], ∀ y ∈ s.data_files.map (fun z => z.basename),
        (s.data_files.map (fun z => z.basename)).count y ≤ 1) ∧
     (∃ s ∈ [c4exSetB, c5okSet], s.data_files.length ≠ 2)) ∧
    (∃ s ∈ [c4exSetB, c5okSet], s.data_files.length ≠ 2 ∧
      checkPhenotypeFileSets [c4exSetB, c5okSet] =
        .error (.setSizeMismatch (s.data_files.map (fun z => z.basename)) 2)) := by
  refine ⟨⟨by decide, by decide, by decide⟩, ?_⟩
  exact claim_C4.2.2 [c4exSetB, c5okSet] 2 (by decide) (by decide) (by decide)

/-- C5 (counterexample): a subject table with consent values 1 and 2 and a
phenotype set of two grammar-valid basenames in which each expected token
`.c1.`, `.c2.` appears in some basename — yet the validator fails and names
both tokens, because it tests each token only against the basename aligned
with it after sorting (the two participant-set numbers invert the order). -/
theorem claim_C5_counterexample :
    _check_consent_groups c5exFS c5exSubj [c5exSet] none =
      .error (.missingConsentGroups ["c1", "c2"]) ∧
    consentValuesOf c5exContent none = .ok ["1", "2"] ∧
    c5exSet.data_files.length = 2 ∧
    strIn ".c1." "phs000001.v1.pht000011.v1.p2.c1.b.x.txt" = true ∧
    strIn ".c2." "phs000001.v1.pht000011.v1.p1.c2.b.x.txt" = true ∧
    (c5exSet.data_files.map fun y => y.basename) =
      ["phs000001.v1.pht000011.v1.p1.c2.b.x.txt",
       "phs000001.v1.pht000011.v1.p2.c1.b.x.txt"] := by
  refine ⟨?_, ?_, ?_, ?_, ?_, ?_⟩ <;> rfl

/-- C5 (amended): the validator derives the expected partitions as the
distinct consent-column values excluding `"0"`, rendered `.c<token>.` and
sorted; for sets of matching data-file count it requires each expected
token to occur in the basename *aligned* with it after sorting both lists,
and otherwise fails with the RuntimeError naming every token missing from
its aligned basename (for the first offending set). -/
theorem claim_C5 (fs : FileContents) (subj : FileSet) (sets : List FileSet)
    (cvar : Option String) (f0 : DbgapFile) (rest : List DbgapFile) (vals : List String)
    (hdf : subj.data_files = f0 :: rest)
    (hv : consentValuesOf (fs f0.full_path) cvar = .ok vals) :
    (_check_consent_groups fs subj sets cvar = .ok () ↔
      ∀ s ∈ sets,
        s.data_files.length = ((dedupFirst vals).filter (fun x => x != "0")).length ∧
        ∀ xy ∈ (expectedTokens vals).zip
            (sortStrs (s.data_files.map (fun y => y.basename))),
          strIn xy.1 xy.2 = true) ∧
    ((∀ s ∈ sets,
        s.data_files.length = ((dedupFirst vals).filter (fun x => x != "0")).length) →
      (∃ s ∈ sets, consentMismatches (expectedTokens vals) s ≠ []) →
      ∃ s ∈ sets, consentMismatches (expectedTokens vals) s ≠ [] ∧
        _check_consent_groups fs subj sets cvar =
          .error (.missingConsentGroups (consentMismatches (expectedTokens vals) s))) := by
  rw [check_consent_groups_eq fs subj sets cvar f0 rest vals hdf hv]
  constructor
  · rw [consentLoop_ok_iff]
    constructor
    · intro h s hs
      have := (consentSetCheck_ok_iff _ _ s).mp (h s hs)
      exact ⟨this.1, (consentMismatches_nil_iff _ s).mp this.2⟩
    · intro h s hs
      rw [consentSetCheck_ok_iff]
      exact ⟨(h s hs).1, (consentMismatches_nil_iff _ s).mpr (h s hs).2⟩
  · intro hlen hex
    exact consentLoop_mismatch_error _ _ sets hlen hex

/-- C5 (witness): for the same subject table and a well-aligned set with
tokens `.c1.`, `.c2.` the validation succeeds. -/
theorem claim_C5_witness :
    (c5exSubj.data_files = mkDbgapFile "/d1/subj.txt" :: [] ∧
     consentValuesOf (c5exFS (mkDbgapFile "/d1/subj.txt").full_path) none =
       .ok ["1", "2"]) ∧
    (_check_consent_groups c5exFS c5exSubj [c5okSet] none = .ok () ↔
      ∀ s ∈ [c5okSet],
        s.data_files.length = ((dedupFirst ["1", "2"]).filter (fun x => x != "0")).length ∧
        ∀ xy ∈ (expectedTokens ["1", "2"]).zip
            (sortStrs (s.data_files.map (fun y => y.basename))),
          strIn xy.1 xy.2 = true) := by
  refine ⟨⟨rfl, by rfl⟩, ?_⟩
  exact (claim_C5 c5exFS c5exSubj [c5okSet] none (mkDbgapFile "/d1/subj.txt") [] ["1", "2"]
    rfl (by rfl)).1

/-- C6 (counterexample): for a root that does not exist, `os.walk` yields
nothing and `get_file_list` returns an empty inventory instead of failing
with a not-found error. -/
theorem claim_C6_counterexample :
    missingFS.pathExists "/data/raw" = false ∧
    get_file_list missingFS "/data/raw" = .ok [] :=
  ⟨rfl, rfl⟩

/-- C6 (amended): for every root path that does not exist on the
filesystem, the inventory builder returns an empty inventory without
raising (the not-found failure claimed by the specification does not occur
in `get_file_list`). -/
theorem claim_C6 (w : WalkFS) (root : String) (h : w.pathExists root = false) :
    get_file_list w root = .ok [] := by
  rw [get_file_list, w.walk_missing root h]
  rfl

/-- C6 (witness): the amended behaviour on a concrete missing root. -/
theorem claim_C6_witness :
    missingFS.pathExists "/data/other" = false ∧
    get_file_list missingFS "/data/other" = .ok [] :=
  ⟨rfl, claim_C6 missingFS "/data/other" rfl⟩

/-- C7: for each of the three special categories, the special-set selection
(records typed `special` whose basename contains the category) selects
exactly the special-typed records whose `base` capture contains the
category string, and the special-set constructor returns `None` exactly
when there are no such records. -/
theorem claim_C7 (fs : FileContents) (files : List DbgapFile) (cat : String)
    (hcat : cat = "Subject" ∨ cat = "Sample" ∨ cat = "Pedigree") :
    specialFiles files cat =
      files.filter (fun f => f.fileType == some "special" &&
        ((specBaseCapture f).map (fun b => strIn cat b)).getD false) ∧
    (_get_special_file_set fs files cat = .ok none ↔ specialFiles files cat = []) :=
  ⟨specialFiles_eq_base_filter cat hcat files, special_file_set_none_iff fs files cat⟩

/-- C7 (witness): the selection equivalence and the `None` criterion on a
concrete inventory holding one Subject special file. -/
theorem claim_C7_witness :
    (("Subject" : String) = "Subject" ∨ ("Subject" : String) = "Sample" ∨
      ("Subject" : String) = "Pedigree") ∧
    (specialFiles c10exFiles "Subject" =
      c10exFiles.filter (fun f => f.fileType == some "special" &&
        ((specBaseCapture f).map (fun b => strIn "Subject" b)).getD false) ∧
    (_get_special_file_set exFS c10exFiles "Subject" = .ok none ↔
      specialFiles c10exFiles "Subject" = [])) :=
  ⟨Or.inl rfl, claim_C7 exFS c10exFiles "Subject" (Or.inl rfl)⟩

/-- C8 (counterexample): in `c8exFiles` the second phenotype group holds the
same basename twice, yet reconciliation does not fail with the
duplicate-file RuntimeError naming it: the first group fails the
cardinality check first. -/
theorem claim_C8_counterexample :
    _get_phenotype_file_sets exFS c8exFiles =
      .error (.setSizeMismatch ["phs000001.v1.pht000003.v1.p1.c1.b.x.txt"] 3) ∧
    buildSetsLoop exFS c8exFiles c8exPheno c8exIds = .ok [c8exSetA, c8exSetB] ∧
    "phs000001.v1.pht000004.v1.p1.c1.b.x.txt" ∈
      c8exSetB.data_files.map (fun z => z.basename) ∧
    1 < (c8exSetB.data_files.map (fun z => z.basename)).count
          "phs000001.v1.pht000004.v1.p1.c1.b.x.txt" := by
  refine ⟨by rfl, by rfl, by decide, by decide⟩

/-- C8 (amended): a successful phenotype reconciliation has no repeated
basename within any group; and whenever all groups pass the per-group
cardinality check, a repeated basename in some group makes the checking
stage fail with the duplicate-file RuntimeError naming the first such
filename of the first offending group. -/
theorem claim_C8 :
    (∀ (fs : FileContents) (files : List DbgapFile) (sets : List FileSet),
        _get_phenotype_file_sets fs files = .ok sets →
        ∀ s ∈ sets, ∀ y ∈ s.data_files.map (fun z => z.basename),
          (s.data_files.map (fun z => z.basename)).count y ≤ 1) ∧
    (∀ (sets : List FileSet) (n : Nat),
        pyMax (sets.map (fun x => x.data_files.length)) = some n →
        (∀ s ∈ sets, s.data_files.length = n) →
        (∃ s ∈ sets, ∃ y ∈ s.data_files.map (fun z => z.basename),
          1 < (s.data_files.map (fun z => z.basename)).count y) →
        ∃ s ∈ sets, ∃ y, y ∈ s.data_files.map (fun z => z.basename) ∧
          1 < (s.data_files.map (fun z => z.basename)).count y ∧
          checkPhenotypeFileSets sets = .error (.duplicateFile y)) := by
  constructor
  · intro fs files sets h s hs
    exact ((checkPhenotypeFileSets_ok sets (get_phenotype_file_sets_ok fs files sets h))
      s hs s hs).2
  · intro sets n hm hlen hex
    obtain ⟨s, hs, y, hy, hcy, hres⟩ := checkSetsLoop_dup_error n sets hlen hex
    refine ⟨s, hs, y, hy, hcy, ?_⟩
    rw [checkPhenotypeFileSets, hm]
    exact hres

/-- C8 (witness): one group of two equal-basename files; the checking stage
raises the duplicate-file error naming the filename. -/
theorem claim_C8_witness :
    (pyMax ([c4exSetA].map (fun x => x.data_files.length)) = some 2 ∧
     (∀ s ∈ [c4exSetA], s.data_files.length = 2) ∧
     (∃ s ∈ [c4exSetA], ∃ y ∈ s.data_files.map (fun z => z.basename),
        1 < (s.data_files.map (fun z => z.basename)).count y)) ∧
    (∃ s ∈ [c4exSetA], ∃ y, y ∈ s.data_files.map (fun z => z.basename) ∧
      1 < (s.data_files.map (fun z => z.basename)).count y ∧
      checkPhenotypeFileSets [c4exSetA] = .error (.duplicateFile y)) := by
  refine ⟨⟨by decide, by decide, by decide⟩, ?_⟩
  exact claim_C8.2 [c4exSetA] 2 (by decide) (by decide) (by decide)

/-- C9 (code bug): on a fresh output root the Subject directory is created,
but on a second materialization — when `Subject/` already exists and
`Subjects/` does not — the existence test of line 299 checks the wrong name
(`"Subjects"` instead of `"Subject"`), so `os.mkdir("Subject")` raises
FileExistsError instead of being skipped. -/
theorem claim_C9 :
    makeSubjectDirStep (fun _ => false) = .ok () ∧
    makeSubjectDirStep (fun d => d == "Subject") = .error (.fileExists "Subject") :=
  ⟨rfl, rfl⟩

/-- C10: the top-level reconciliation requires the Subject and the Sample
special file sets to be present, aborting with an assertion failure when
either is absent; the Pedigree set alone may be absent without aborting. -/
theorem claim_C10 (fs : FileContents) (files : List DbgapFile) :
    (_get_special_file_set fs files "Subject" = .ok none →
      organizeSpecialSets fs files = .error .assertionError) ∧
    (∀ subj, _get_special_file_set fs files "Subject" = .ok (some subj) →
      _get_special_file_set fs files "Sample" = .ok none →
      organizeSpecialSets fs files = .error .assertionError) ∧
    (∀ subj samp ped, _get_special_file_set fs files "Subject" = .ok (some subj) →
      _get_special_file_set fs files "Sample" = .ok (some samp) →
      _get_special_file_set fs files "Pedigree" = .ok ped →
      organizeSpecialSets fs files = .ok (subj, samp, ped)) := by
  refine ⟨?_, ?_, ?_⟩
  · intro h
    rw [organizeSpecialSets, h]
  · intro subj h1 h2
    rw [organizeSpecialSets, h1, h2]
  · intro subj samp ped h1 h2 h3
    rw [organizeSpecialSets, h1, h2, h3]

/-- C10 (witness): an inventory with Subject and Sample sets but no
Pedigree files passes the assertions and carries `none` for Pedigree. -/
theorem claim_C10_witness :
    (_get_special_file_set exFS c10exFiles "Subject" = .ok (some c10exSubj) ∧
     _get_special_file_set exFS c10exFiles "Sample" = .ok (some c10exSamp) ∧
     _get_special_file_set exFS c10exFiles "Pedigree" = .ok none) ∧
    organizeSpecialSets exFS c10exFiles = .ok (c10exSubj, c10exSamp, none) := by
  refine ⟨⟨by rfl, by rfl, by rfl⟩, ?_⟩
  exact (claim_C10 exFS c10exFiles).2.2 c10exSubj c10exSamp none (by rfl) (by rfl) (by rfl)
